import Mathlib

/-!
# Verification of the MotorTown JSON-to-SQLite aggregation pipeline

A shallow embedding of `scripts/aggregate_to_sqlite.py`: parsed JSON
documents become an inductive value type, the per-row field extractors and
the blueprint cross-reference resolver become executable Lean functions,
and a Python exception is modelled by `Except.error` (an uncaught exception
aborts the whole phase before its commit, so one error value for the whole
fold is faithful to the observable database contents).  SQLite storage
values are modelled by `SVal`; Python `int`/`float` and JSON numbers are
modelled by `ℚ` (no claim distinguishes integer from real storage or
depends on floating-point rounding).
-/

namespace MT

/-- A parsed JSON value (the result of `json.load`).  Objects are ordered
field lists, as in Python dicts; `json.load` produces unique keys. -/
inductive JVal where
  | jnull : JVal
  | jbool : Bool → JVal
  | jnum : ℚ → JVal
  | jstr : String → JVal
  | jarr : List JVal → JVal
  | jobj : List (String × JVal) → JVal
deriving Inhabited

/-- First binding of a key in an object's field list (Python dict lookup;
keys produced by `json.load` are unique, so first = only). -/
def jlookup : List (String × JVal) → String → Option JVal
  | [], _ => none
  | (k, v) :: rest, key => if k = key then some v else jlookup rest key

/-- Python `dict.get(key)`: `None` (here `jnull`) when the key is absent. -/
def pyGet (fs : List (String × JVal)) (k : String) : JVal :=
  (jlookup fs k).getD .jnull

/-- Python `dict.get(key, default)`. -/
def pyGetD (fs : List (String × JVal)) (k : String) (d : JVal) : JVal :=
  (jlookup fs k).getD d

/-- Python truthiness of a JSON value: `None`, `False`, `0`, `""`, `[]`
and `{}` are falsy, everything else truthy. -/
def pyTruthy : JVal → Bool
  | .jnull => false
  | .jbool b => b
  | .jnum q => decide (q ≠ 0)
  | .jstr s => decide (s ≠ "")
  | .jarr xs => !xs.isEmpty
  | .jobj fs => !fs.isEmpty

/-- Python `a or b`: `a` when truthy, else `b`. -/
def pyOr (a b : JVal) : JVal := if pyTruthy a then a else b

/-- `x.get(...)` / `x[...]` on a value that must be a dict; any non-dict
raises (AttributeError / TypeError in Python). -/
def asDict : JVal → Except String (List (String × JVal))
  | .jobj fs => .ok fs
  | _ => .error "AttributeError"

/-- Python `for x in v`: lists yield elements, strings yield one-character
strings, dicts yield their keys, everything else raises TypeError. -/
def iterElems : JVal → Except String (List JVal)
  | .jarr xs => .ok xs
  | .jstr s => .ok (s.data.map fun c => .jstr (String.mk [c]))
  | .jobj fs => .ok (fs.map fun p => .jstr p.1)
  | _ => .error "TypeError"

/-- A value as stored by the `sqlite3` driver: Python `None` ↦ NULL,
`bool`/`int`/`float` ↦ a number (merged, see module comment), `str` ↦ TEXT.
Lists and dicts are unsupported parameter types and raise. -/
inductive SVal where
  | null : SVal
  | num : ℚ → SVal
  | text : String → SVal
deriving DecidableEq, Repr, Inhabited

/-- Binding a Python value as an SQLite parameter. -/
def toSValE : JVal → Except String SVal
  | .jnull => .ok .null
  | .jbool b => .ok (.num (if b then 1 else 0))
  | .jnum q => .ok (.num q)
  | .jstr s => .ok (.text s)
  | .jarr _ => .error "InterfaceError"
  | .jobj _ => .error "InterfaceError"

/-- SQL `=` used in join conditions: NULL never matches. -/
def sEqb (a b : SVal) : Bool :=
  match a, b with
  | .null, _ => false
  | _, .null => false
  | a, b => a = b

/-- Rational addition through `mkRat`.  Core's `Rat.add` is irreducible to
the kernel; this computable form is proved equal to `+` below and used in
every accumulating definition so that concrete runs evaluate. -/
def qadd (a b : ℚ) : ℚ :=
  mkRat (a.num * b.den + b.num * a.den) (a.den * b.den)

/-- Rational list sum through `qadd`. -/
def qsum (l : List ℚ) : ℚ := l.foldr qadd 0

/-- Error-propagating left fold: one uncaught exception aborts the whole
phase (nothing is committed), so the fold yields either the final state or
the first error. -/
def foldE (step : σ → α → Except String σ) : σ → List α → Except String σ
  | s, [] => .ok s
  | s, x :: xs =>
    match step s x with
    | .ok s₁ => foldE step s₁ xs
    | .error e => .error e

/-- Error-propagating map. -/
def mapE (f : α → Except String β) : List α → Except String (List β)
  | [] => .ok []
  | x :: xs =>
    match f x with
    | .ok y =>
      match mapE f xs with
      | .ok ys => .ok (y :: ys)
      | .error e => .error e
    | .error e => .error e

/-! ## String helpers from the script -/

/-- Python `"::" in value` on the character list of `value`. -/
def hasSep : List Char → Bool
  | [] => false
  | [_] => false
  | a :: b :: rest => if a = ':' ∧ b = ':' then true else hasSep (b :: rest)

/-- The final chunk of Python's left-to-right non-overlapping
`value.split("::")`, as an `Option`: `some t` when at least one separator
occurrence exists, in which case `t` is everything after the last chunk
boundary. -/
def tailAfterSeps : List Char → Option (List Char)
  | [] => none
  | [_] => none
  | a :: b :: rest =>
    if a = ':' ∧ b = ':' then some ((tailAfterSeps rest).getD rest)
    else tailAfterSeps (b :: rest)

/-- `strip_enum` (lines 13–17): `value.split("::")[-1]` when `"::" in
value`, otherwise the value unchanged. -/
def strip_enum (s : List Char) : List Char :=
  if hasSep s then (tailAfterSeps s).getD s else s

/-- `strip_enum` on `String`. -/
def stripEnum (s : String) : String := String.mk (strip_enum s.data)

/-- Python `==` of an arbitrary value against a string literal: true only
for an equal string (no cross-type equality among JSON values). -/
def isStr : JVal → String → Bool
  | .jstr s, t => s = t
  | _, _ => false

/-- `get_object_path` (lines 20–24): a path-like value for dicts whose
`Type` is `Import` or `Export` (`Path` if truthy, else `ObjectName`),
`None` (`jnull`) otherwise. -/
def get_object_path (obj : JVal) : JVal :=
  match obj with
  | .jobj fs =>
    if isStr (pyGet fs "Type") "Import" || isStr (pyGet fs "Type") "Export" then
      pyOr (pyGet fs "Path") (pyGet fs "ObjectName")
    else .jnull
  | _ => .jnull

/-- Python `path.split("/")` (single-character separator, every chunk). -/
def splitSlash : List Char → List (List Char)
  | [] => [[]]
  | c :: rest =>
    if c = '/' then [] :: splitSlash rest
    else
      match splitSlash rest with
      | chunk :: chunks => (c :: chunk) :: chunks
      | [] => [[c]]

/-- Python `s.replace("_C", "")`: every non-overlapping occurrence of the
two-character literal `_C` is removed, scanning left to right. -/
def removeUC : List Char → List Char
  | [] => []
  | [c] => [c]
  | a :: b :: rest =>
    if a = '_' ∧ b = 'C' then removeUC rest else a :: removeUC (b :: rest)

/-- Python `s.replace("_parsed", "")`: every non-overlapping occurrence of
the literal `_parsed` removed, scanning left to right. -/
def removeParsed : List Char → List Char
  | '_' :: 'p' :: 'a' :: 'r' :: 's' :: 'e' :: 'd' :: rest => removeParsed rest
  | c :: rest => c :: removeParsed rest
  | [] => []

/-- Blueprint-key derivation shared verbatim by `process_cargo_weights`
(lines 423–426) and `process_vehicle_weights` (lines 566–570):
`parts = path.split("/"); if len(parts) >= 2:
blueprint_name = parts[-1].replace("_C", "")`. -/
def blueprintKeyOfPath (s : String) : Option String :=
  let parts := splitSlash s.data
  if 2 ≤ parts.length then some (String.mk (removeUC (parts.getLastD [])))
  else none

/-- Python `str.startswith` over characters. -/
def strStarts (s pre : String) : Bool := pre.data.isPrefixOf s.data

/-- Python `str.endswith` over characters. -/
def strEnds (s suf : String) : Bool := suf.data.isSuffixOf s.data

/-- `pathlib.Path(name).stem`: the file name without its final suffix.
Only ever applied under an `endswith("_parsed.json")` guard, where the
last dot of the name is necessarily the dot of `.json`. -/
def pathStem (name : String) : String :=
  if strEnds name ".json" then String.mk (name.data.dropLast.dropLast.dropLast.dropLast.dropLast)
  else name

/-! ## Rows and database state -/

/-- One row of the `vehicles` table (schema lines 45–68), in column order. -/
structure VehicleRow where
  id : SVal
  name : SVal
  vehicle_type : SVal
  truck_class : SVal
  blueprint_path : SVal
  cost : SVal
  comport : SVal
  is_taxiable : SVal
  is_limoable : SVal
  is_busable : SVal
  is_race_car : SVal
  can_haul_trailer : SVal
  has_fuel_pump : SVal
  is_hidden : SVal
  is_disabled : SVal
  exhaust_smoke_density : SVal
  delivery_payment_multiplier : SVal
  delivery_base_payment : SVal
  body_damage_threshold : SVal
  source_file : SVal
deriving DecidableEq, Repr, Inhabited

/-- One row of the `vehicle_parts` table (schema lines 71–86). -/
structure PartRow where
  id : SVal
  name : SVal
  part_type : SVal
  cost : SVal
  mass_kg : SVal
  air_drag_multiplier : SVal
  engine_asset_path : SVal
  transmission_asset_path : SVal
  lsd_asset_path : SVal
  final_drive_ratio : SVal
  is_hidden : SVal
  source_file : SVal
deriving DecidableEq, Repr, Inhabited

/-- One row of the `cargos` table (schema lines 111–143). -/
structure CargoRow where
  id : SVal
  name : SVal
  cargo_type : SVal
  volume_size : SVal
  weight_min : SVal
  weight_max : SVal
  payment_per_km : SVal
  payment_multiplier : SVal
  base_payment : SVal
  payment_sqrt_ratio : SVal
  payment_sqrt_ratio_min_capacity : SVal
  max_damage_payment_multiplier : SVal
  damage_bonus_multiplier : SVal
  manual_loading_payment : SVal
  min_delivery_distance : SVal
  max_delivery_distance : SVal
  has_timer : SVal
  base_time_seconds : SVal
  timer_by_speed_kph : SVal
  timer_by_road_speed_limit_ratio : SVal
  actor_class_path : SVal
  allow_stacking : SVal
  use_damage : SVal
  fragile : SVal
  spawn_probability : SVal
  num_cargo_min : SVal
  num_cargo_max : SVal
  is_deprecated : SVal
  source_file : SVal
deriving DecidableEq, Repr, Inhabited

/-- One row of the `cargo_bed_specs` table (schema lines 187–199). -/
structure BedSpecRow where
  part_id : SVal
  cargo_space_type : SVal
  length_cm : SVal
  width_cm : SVal
  height_cm : SVal
  dump_volume_kl : SVal
  fix_cargo : SVal
  unlimited_height : SVal
deriving DecidableEq, Repr, Inhabited

/-- The mutable database state: primary tables keyed by their TEXT primary
key, child tables as append-only row lists (their AUTOINCREMENT surrogate
keys carry no information and are omitted).  Weight rows are
`(owner id, total mass, blueprint path)`, component rows are
`(cargo id, component name, mass)`, tag/space/compatible rows are
`(owner id, value)`, default-part rows are `(vehicle id, slot, part id)`. -/
structure DB where
  vehicles : List VehicleRow := []
  vehicle_tags : List (SVal × SVal) := []
  vehicle_default_parts : List (SVal × SVal × SVal) := []
  vehicle_parts : List PartRow := []
  part_compatible_types : List (SVal × SVal) := []
  cargos : List CargoRow := []
  cargo_space_types : List (SVal × SVal) := []
  cargo_weights : List (SVal × SVal × SVal) := []
  cargo_weight_components : List (SVal × SVal × SVal) := []
  cargo_bed_specs : List BedSpecRow := []
  vehicle_weights : List (SVal × SVal × SVal) := []
deriving DecidableEq, Repr, Inhabited

/-- The freshly created database (`create_schema` on an empty file). -/
def DB.empty : DB := {}

/-- `INSERT OR REPLACE` into a table whose first column is the primary
key: every row with the same key is deleted, the new row inserted. -/
def upsertBy (key : α → SVal) (t : List α) (x : α) : List α :=
  t.filter (fun y => decide (key y ≠ key x)) ++ [x]

/-- One parsed input file: its file name and its `json.load` result. -/
structure InputFile where
  name : String
  data : JVal
deriving Inhabited

/-! ## Field extraction -/

/-- A field passed through unchanged: `row.get(k)` then parameter
binding. -/
def storeField (fs : List (String × JVal)) (k : String) : Except String SVal :=
  toSValE (pyGet fs k)

/-- An enum field: `strip_enum(row.get(k, ""))`; `strip_enum` raises
TypeError on a non-string. -/
def stripField (fs : List (String × JVal)) (k : String) : Except String SVal :=
  match pyGetD fs k (.jstr "") with
  | .jstr s => .ok (.text (stripEnum s))
  | _ => .error "TypeError"

/-- An object-reference field: `get_object_path(row.get(k))` then
parameter binding. -/
def objPathField (fs : List (String × JVal)) (k : String) : Except String SVal :=
  toSValE (get_object_path (pyGet fs k))

/-- `row["RowName"]`: KeyError when absent, AttributeError/TypeError when
the row is not a dict (handled by the caller's `asDict`). -/
def rowNameOf (fs : List (String × JVal)) : Except String JVal :=
  match jlookup fs "RowName" with
  | some v => .ok v
  | none => .error "KeyError"

/-- GameplayTags child rows (lines 258–265): skipped silently unless the
field is a dict; each tag is bound as a parameter. -/
def extractVehicleTags (vid : SVal) (fs : List (String × JVal)) :
    Except String (List (SVal × SVal)) :=
  match pyGetD fs "GameplayTags" (.jobj []) with
  | .jobj tfs =>
    match iterElems (pyGetD tfs "GameplayTags" (.jarr [])) with
    | .ok elems => mapE (fun t => do let tv ← toSValE t; .ok (vid, tv)) elems
    | .error e => .error e
  | _ => .ok []

/-- Default-part child rows (lines 267–277): a `Map`-tagged container with
`Entries`; only entries with a non-empty slot and a truthy part id become
rows. -/
def extractVehicleDefaultParts (vid : SVal) (fs : List (String × JVal)) :
    Except String (List (SVal × SVal × SVal)) :=
  match pyGetD fs "Parts" (.jobj []) with
  | .jobj pfs =>
    if isStr (pyGet pfs "_Type") "Map" then
      match iterElems (pyGetD pfs "Entries" (.jarr [])) with
      | .ok entries => do
        let rows ← mapE (fun e => do
          let efs ← asDict e
          let slot ← (match pyGetD efs "Key" (.jstr "") with
            | .jstr s => .ok (stripEnum s)
            | _ => .error "TypeError")
          let pidv := pyGet efs "Value"
          if slot ≠ "" ∧ pyTruthy pidv = true then do
            let pidsv ← toSValE pidv
            .ok (some (vid, SVal.text slot, pidsv))
          else .ok none) entries
        .ok (rows.filterMap id)
      | .error e => .error e
    else .ok []
  | _ => .ok []

/-- One row of a vehicle file (lines 229–277) as pure data: the primary
row, the tag rows and the default-part rows it inserts. -/
def extractVehicle (fname : String) (row : JVal) :
    Except String (VehicleRow × List (SVal × SVal) × List (SVal × SVal × SVal)) := do
  let fs ← asDict row
  let ridv ← rowNameOf fs
  let rid ← toSValE ridv
  let name ← storeField fs "VehicleName"
  let vtype ← stripField fs "VehicleType"
  let tclass ← stripField fs "TruckClass"
  let bp ← objPathField fs "VehicleClass"
  let cost ← storeField fs "Cost"
  let comport ← storeField fs "Comport"
  let taxi ← storeField fs "bIsTaxiable"
  let limo ← storeField fs "bIsLimoable"
  let bus ← storeField fs "bIsBusable"
  let race ← storeField fs "bIsRaceCar"
  let trailer ← storeField fs "bTrailerHauling"
  let fuel ← storeField fs "bHasFuelPump"
  let hidden ← storeField fs "bHidden"
  let disabled ← storeField fs "bDisabled"
  let smoke ← storeField fs "ExhaustBlackSmokeDensity"
  let dmult ← storeField fs "DeliveryPaymentMultiplier"
  let dbase ← storeField fs "DeliveryBasePayment"
  let dmg ← storeField fs "BodyDamageThreshold"
  let v : VehicleRow :=
    ⟨rid, name, vtype, tclass, bp, cost, comport, taxi, limo, bus, race,
     trailer, fuel, hidden, disabled, smoke, dmult, dbase, dmg, .text fname⟩
  let tags ← extractVehicleTags rid fs
  let dparts ← extractVehicleDefaultParts rid fs
  .ok (v, tags, dparts)

def vehicleStep (fname : String) (db : DB) (row : JVal) : Except String DB :=
  match extractVehicle fname row with
  | .ok (v, tags, dparts) =>
    .ok { db with
      vehicles := upsertBy (fun r => r.id) db.vehicles v,
      vehicle_tags := db.vehicle_tags ++ tags,
      vehicle_default_parts := db.vehicle_default_parts ++ dparts }
  | .error e => .error e

/-- Compatible-type child rows (lines 324–330). -/
def extractPartTypes (pid : SVal) (fs : List (String × JVal)) :
    Except String (List (SVal × SVal)) :=
  match iterElems (pyGetD fs "VehicleTypes" (.jarr [])) with
  | .ok elems =>
    mapE (fun t => match t with
      | .jstr s => .ok (pid, SVal.text (stripEnum s))
      | _ => .error "TypeError") elems
  | .error e => .error e

/-- One row of a vehicle-parts file (lines 303–330) as pure data. -/
def extractPart (fname : String) (row : JVal) :
    Except String (PartRow × List (SVal × SVal)) := do
  let fs ← asDict row
  let ridv ← rowNameOf fs
  let rid ← toSValE ridv
  let name ← storeField fs "Name"
  let ptype ← stripField fs "PartType"
  let cost ← storeField fs "Cost"
  let mass ← storeField fs "MassKg"
  let drag ← storeField fs "AirDragMultiplier"
  let engine ← objPathField fs "EngineAsset"
  let trans ← objPathField fs "TransmissionAsset"
  let lsd ← objPathField fs "LSDAsset"
  let fdr ← storeField fs "FinalDriveRatio"
  let hidden ← storeField fs "bIsHidden"
  let p : PartRow :=
    ⟨rid, name, ptype, cost, mass, drag, engine, trans, lsd, fdr, hidden, .text fname⟩
  let compat ← extractPartTypes rid fs
  .ok (p, compat)

def partStep (fname : String) (db : DB) (row : JVal) : Except String DB :=
  match extractPart fname row with
  | .ok (p, compat) =>
    .ok { db with
      vehicle_parts := upsertBy (fun r => r.id) db.vehicle_parts p,
      part_compatible_types := db.part_compatible_types ++ compat }
  | .error e => .error e

/-- Weight-range extraction (lines 354–361): outer wrapper checked with
`isinstance` (non-dict degrades to 0/0), inner payload read with `.get`
(a non-dict inner payload raises AttributeError). -/
def extractWeightRange (fs : List (String × JVal)) : Except String (JVal × JVal) :=
  match pyGetD fs "WeightRange" (.jobj []) with
  | .jobj wfs =>
    match pyGetD wfs "WeightRange" (.jobj []) with
    | .jobj ifs => .ok (pyGetD ifs "X" (.jnum 0), pyGetD ifs "Y" (.jnum 0))
    | _ => .error "AttributeError"
  | _ => .ok (.jnum 0, .jnum 0)

/-- Space-type child rows (lines 398–404). -/
def extractSpaceTypes (cid : SVal) (fs : List (String × JVal)) :
    Except String (List (SVal × SVal)) :=
  match iterElems (pyGetD fs "CargoSpaceTypes" (.jarr [])) with
  | .ok elems =>
    mapE (fun t => match t with
      | .jstr s => .ok (cid, SVal.text (stripEnum s))
      | _ => .error "TypeError") elems
  | .error e => .error e

/-- One row of a cargo file (lines 351–404) as pure data. -/
def extractCargo (fname : String) (row : JVal) :
    Except String (CargoRow × List (SVal × SVal)) := do
  let fs ← asDict row
  let ridv ← rowNameOf fs
  let wr ← extractWeightRange fs
  let rid ← toSValE ridv
  let name ← storeField fs "Name"
  let ctype ← stripField fs "CargoType"
  let vol ← storeField fs "VolumeSize"
  let wmin ← toSValE wr.1
  let wmax ← toSValE wr.2
  let ppk ← storeField fs "PaymentPer1Km"
  let pmul ← storeField fs "PaymentPer1KmMultiplierByMaxWeight"
  let bpay ← storeField fs "BasePayment"
  let psr ← storeField fs "PaymentSqrtRatio"
  let psrm ← storeField fs "PaymentSqrtRatioMinCapcity"
  let mdpm ← storeField fs "MaxDamagePaymentMultiplier"
  let dbm ← storeField fs "DamageBonusMultiplier"
  let mlp ← storeField fs "ManualLoadingPayment"
  let mind ← storeField fs "MinDeliveryDistance"
  let maxd ← storeField fs "MaxDeliveryDistance"
  let timer ← storeField fs "bTimer"
  let bts ← storeField fs "BaseTimeSeconds"
  let tsk ← storeField fs "TimerBySpeedKPH"
  let trs ← storeField fs "TimerByRoadSpeedLimitRatio"
  let actor ← objPathField fs "ActorClass"
  let stack ← storeField fs "bAllowStacking"
  let dmg ← storeField fs "bUseDamage"
  let fragile ← storeField fs "Fragile"
  let spawn ← storeField fs "SpawnProbability"
  let ncmin ← storeField fs "NumCargoMin"
  let ncmax ← storeField fs "NumCargoMax"
  let depr ← storeField fs "bDepcreated"
  let c : CargoRow :=
    ⟨rid, name, ctype, vol, wmin, wmax, ppk, pmul, bpay, psr, psrm, mdpm, dbm,
     mlp, mind, maxd, timer, bts, tsk, trs, actor, stack, dmg, fragile, spawn,
     ncmin, ncmax, depr, .text fname⟩
  let spaces ← extractSpaceTypes rid fs
  .ok (c, spaces)

def cargoStep (fname : String) (db : DB) (row : JVal) : Except String DB :=
  match extractCargo fname row with
  | .ok (c, spaces) =>
    .ok { db with
      cargos := upsertBy (fun r => r.id) db.cargos c,
      cargo_space_types := db.cargo_space_types ++ spaces }
  | .error e => .error e

/-- One row of a cargo-bed file (lines 514–547).  `row["RowName"]` is read
before the truthiness guard but bound as a parameter only after it, so a
falsy `CargoBed` skips the row with no conversion error. -/
def bedFields (ridv : JVal) (cbfs : List (String × JVal)) :
    Except String BedSpecRow := do
  let space ← stripField cbfs "CargoSpaceType"
  let sfs ← asDict (pyGetD cbfs "CargoSpaceSize" (.jobj []))
  let ifs ← asDict (pyGetD sfs "CargoSpaceSize" (.jobj []))
  let pid ← toSValE ridv
  let len ← toSValE (pyGetD ifs "X" (.jnum 0))
  let wid ← toSValE (pyGetD ifs "Y" (.jnum 0))
  let hei ← toSValE (pyGetD ifs "Z" (.jnum 0))
  let dump ← toSValE (pyGetD cbfs "DumpVolume" (.jnum 0))
  let fix ← toSValE (pyGetD cbfs "bFixCargo" (.jbool false))
  let unl ← toSValE (pyGetD cbfs "bUnlimitedHeight" (.jbool false))
  .ok ⟨pid, space, len, wid, hei, dump, fix, unl⟩

def bedStep (_fname : String) (db : DB) (row : JVal) : Except String DB :=
  match asDict row with
  | .error e => .error e
  | .ok fs =>
    match rowNameOf fs with
    | .error e => .error e
    | .ok ridv =>
      let cargoBed := pyGetD fs "CargoBed" (.jobj [])
      if pyTruthy cargoBed = false then .ok db
      else
        match asDict cargoBed with
        | .error e => .error e
        | .ok cbfs =>
          match bedFields ridv cbfs with
          | .error e => .error e
          | .ok r =>
            .ok { db with
              cargo_bed_specs := upsertBy (fun x => x.part_id) db.cargo_bed_specs r }

/-! ## The tabular-file processors -/

/-- Shared shape of the four tabular processors: the filename filter, the
`data.get("Data", {}).get("Type") != "DataTable"` guard and the iteration
over `data["Data"]["Rows"]`. -/
def processTabularFile (recog : String → Bool)
    (step : String → DB → JVal → Except String DB)
    (db : DB) (f : InputFile) : Except String DB :=
  if recog f.name = false then .ok db else
  match f.data with
  | .jobj topfs =>
    match (jlookup topfs "Data").getD (.jobj []) with
    | .jobj dfs =>
      if isStr (pyGet dfs "Type") "DataTable" = false then .ok db
      else
        match jlookup dfs "Rows" with
        | none => .error "KeyError"
        | some rowsVal =>
          match iterElems rowsVal with
          | .ok rows => foldE (step f.name) db rows
          | .error e => .error e
    | _ => .error "AttributeError"
  | _ => .error "AttributeError"

/-- Filename filter of `process_vehicles` (line 219). -/
def recogVehicles (n : String) : Bool := strStarts n "Vehicles"

/-- Filename filter of `process_vehicle_parts` (lines 288–293). -/
def partFileNames : List String :=
  ["VehicleParts", "VehicleParts0", "Engines", "Transmissions", "Wheels",
   "Suspensions", "BrakePads", "BrakePower", "BrakeBalance", "FinalDriveRatio",
   "LSD", "AeroParts", "CargoBed", "Headlights", "UtilityParts"]

def recogParts (n : String) : Bool := partFileNames.any (fun p => strStarts n p)

/-- Filename filter of `process_cargos` (line 341). -/
def recogCargos (n : String) : Bool := strStarts n "Cargos"

/-- Filename filter of `process_cargo_bed_specs` (line 504). -/
def recogBeds (n : String) : Bool :=
  strStarts n "CargoBed" && !(strStarts n "CargoBedAttachments")

def processVehiclesFile : DB → InputFile → Except String DB :=
  processTabularFile recogVehicles vehicleStep

/-- `process_vehicles` (lines 214–280). -/
def processVehicles (db : DB) (files : List InputFile) : Except String DB :=
  foldE processVehiclesFile db files

def processPartsFile : DB → InputFile → Except String DB :=
  processTabularFile recogParts partStep

/-- `process_vehicle_parts` (lines 283–332). -/
def processParts (db : DB) (files : List InputFile) : Except String DB :=
  foldE processPartsFile db files

def processCargosFile : DB → InputFile → Except String DB :=
  processTabularFile recogCargos cargoStep

/-- `process_cargos` (lines 336–407). -/
def processCargos (db : DB) (files : List InputFile) : Except String DB :=
  foldE processCargosFile db files

def processBedsFile : DB → InputFile → Except String DB :=
  processTabularFile recogBeds bedStep

/-- `process_cargo_bed_specs` (lines 499–550). -/
def processBeds (db : DB) (files : List InputFile) : Except String DB :=
  foldE processBedsFile db files

/-! ## Blueprint cross-reference resolution -/

/-- Python dict assignment `d[k] = v` on an ordered association list:
update in place when the key exists, append otherwise. -/
def dictSet (m : List (SVal × String)) (k : SVal) (v : String) : List (SVal × String) :=
  if m.any (fun p => decide (p.1 = k)) then
    m.map (fun p => if p.1 = k then (k, v) else p)
  else m ++ [(k, v)]

/-- One row of `SELECT id, actor_class_path FROM cargos WHERE
actor_class_path IS NOT NULL` fed through lines 419–426: a truthy path is
split; a numeric stored path would be truthy yet have no `.split`
(AttributeError). -/
def blueprintMapStep (m : List (SVal × String)) (idPath : SVal × SVal) :
    Except String (List (SVal × String)) :=
  match idPath.2 with
  | .null => .ok m
  | .text s =>
    if s = "" then .ok m
    else
      match blueprintKeyOfPath s with
      | some k => .ok (dictSet m idPath.1 k)
      | none => .ok m
  | .num q => if q = 0 then .ok m else .error "AttributeError"

/-- Step 1 of `process_cargo_weights` (lines 414–426). -/
def buildCargoMap (db : DB) : Except String (List (SVal × String)) :=
  foldE blueprintMapStep [] (db.cargos.map (fun c => (c.id, c.actor_class_path)))

/-- Step 1 of `process_vehicle_weights` (lines 557–570): identical logic
over `SELECT id, blueprint_path FROM vehicles`. -/
def buildVehicleMap (db : DB) : Except String (List (SVal × String)) :=
  foldE blueprintMapStep [] (db.vehicles.map (fun v => (v.id, v.blueprint_path)))

/-- `blueprint_to_cargos[name].append(id)` with the implicit
empty-list initialisation (lines 431–435 / 575–579). -/
def revInsert (r : List (String × List SVal)) (kv : SVal × String) :
    List (String × List SVal) :=
  if r.any (fun p => decide (p.1 = kv.2)) then
    r.map (fun p => if p.1 = kv.2 then (p.1, p.2 ++ [kv.1]) else p)
  else r ++ [(kv.2, [kv.1])]

/-- Step 2 (lines 430–435 / 574–579): invert the id → blueprint-name map. -/
def buildReverse (m : List (SVal × String)) : List (String × List SVal) :=
  m.foldl revInsert []

/-- Entity ids matched by a blueprint name:
`blueprint_to_cargos.get(name, [])`. -/
def matchedIds (rev : List (String × List SVal)) (bname : String) : List SVal :=
  ((rev.find? (fun p => decide (p.1 = bname))).map (fun p => p.2)).getD []

/-- `if mass and mass > 0` on `body_instance.get("MassInKgOverride")`:
falsy values fail the guard, positive numbers pass, `True` passes (Python
`True > 0` holds and `True` adds 1), any other truthy value cannot be
compared with `0` and raises TypeError. -/
def massContrib (m : JVal) : Except String (Option ℚ) :=
  if pyTruthy m = false then .ok none
  else
    match m with
    | .jnum q => .ok (if 0 < q then some q else none)
    | .jbool _ => .ok (some 1)
    | _ => .error "TypeError"

/-- One export of a cargo blueprint (lines 463–473): `ExportName` defaults
to `"Unknown"`, `Properties` to `{}`; a `BodyInstance` dict may contribute
a positive mass, accumulated together with a component record. -/
def exportStep (acc : ℚ × List (JVal × ℚ)) (e : JVal) :
    Except String (ℚ × List (JVal × ℚ)) :=
  match asDict e with
  | .error er => .error er
  | .ok efs =>
    let ename := pyGetD efs "ExportName" (.jstr "Unknown")
    match asDict (pyGetD efs "Properties" (.jobj [])) with
    | .error er => .error er
    | .ok pfs =>
      match jlookup pfs "BodyInstance" with
      | some (.jobj bfs) =>
        match massContrib (pyGet bfs "MassInKgOverride") with
        | .error er => .error er
        | .ok (some q) => .ok (qadd acc.1 q, acc.2 ++ [(ename, q)])
        | .ok none => .ok acc
      | _ => .ok acc

/-- Total mass and component list of a blueprint document's exports. -/
def scanExports (es : List JVal) : Except String (ℚ × List (JVal × ℚ)) :=
  foldE exportStep (0, []) es

/-- One export of a vehicle blueprint (lines 606–614): the same scan
without component records or the `ExportName` read (which cannot fail). -/
def chassisStep (acc : ℚ) (e : JVal) : Except String ℚ :=
  match asDict e with
  | .error er => .error er
  | .ok efs =>
    match asDict (pyGetD efs "Properties" (.jobj [])) with
    | .error er => .error er
    | .ok pfs =>
      match jlookup pfs "BodyInstance" with
      | some (.jobj bfs) =>
        match massContrib (pyGet bfs "MassInKgOverride") with
        | .error er => .error er
        | .ok (some q) => .ok (qadd acc q)
        | .ok none => .ok acc
      | _ => .ok acc

def scanChassis (es : List JVal) : Except String ℚ :=
  foldE chassisStep 0 es

/-- Lines 477–480 / 618–621: `blueprint_path` is `None` unless
`data["Data"].get("Exports")` is truthy, in which case it is the first
export's `ExportName` (no default). -/
def firstExportName (dfs : List (String × JVal)) : Except String JVal :=
  let ev := pyGet dfs "Exports"
  if pyTruthy ev = false then .ok .jnull
  else
    match ev with
    | .jarr (e :: _) =>
      match e with
      | .jobj efs => .ok (pyGet efs "ExportName")
      | _ => .error "AttributeError"
    | _ => .error "TypeError"

/-- The common blueprint-file guard (lines 438–450 / 582–594): suffix
filter, `Blueprint` type check, and the blueprint name derived from the
file stem with every `_parsed` occurrence removed. -/
def blueprintDocOf (f : InputFile) : Option (Except String (String × List (String × JVal))) :=
  if strEnds f.name "_parsed.json" = false then none
  else
    match f.data with
    | .jobj topfs =>
      match (jlookup topfs "Data").getD (.jobj []) with
      | .jobj dfs =>
        if isStr (pyGet dfs "Type") "Blueprint" = false then none
        else some (.ok (String.mk (removeParsed (pathStem f.name).data), dfs))
      | _ => some (.error "AttributeError")
    | _ => some (.error "AttributeError")

/-- A component record bound as SQLite parameters: the export name is
converted, the mass is already a number. -/
def convComp (c : JVal × ℚ) : Except String (SVal × ℚ) :=
  match toSValE c.1 with
  | .ok n => .ok (n, c.2)
  | .error e => .error e

/-- Step 3 of `process_cargo_weights` for one file (lines 438–493). -/
def cargoWeightFileStep (rev : List (String × List SVal)) (db : DB)
    (f : InputFile) : Except String DB :=
  match blueprintDocOf f with
  | none => .ok db
  | some (.error e) => .error e
  | some (.ok (bname, dfs)) =>
    let matched := matchedIds rev bname
    if matched.isEmpty then .ok db
    else
      match iterElems (pyGetD dfs "Exports" (.jarr [])) with
      | .error e => .error e
      | .ok es =>
        match scanExports es with
        | .error e => .error e
        | .ok (total, comps) =>
          if 0 < total then
            match firstExportName dfs with
            | .error e => .error e
            | .ok bpv =>
              match toSValE bpv with
              | .error e => .error e
              | .ok bp =>
                match mapE convComp comps with
                | .error e => .error e
                | .ok comps₁ =>
                  .ok { db with
                    cargo_weights := matched.foldl
                      (fun t cid => upsertBy (fun r => r.1) t (cid, SVal.num total, bp))
                      db.cargo_weights,
                    cargo_weight_components := db.cargo_weight_components ++
                      matched.flatMap
                        (fun cid => comps₁.map (fun c => (cid, c.1, SVal.num c.2))) }
          else .ok db

/-- `process_cargo_weights` (lines 410–496). -/
def processCargoWeights (db : DB) (files : List InputFile) : Except String DB := do
  let m ← buildCargoMap db
  foldE (cargoWeightFileStep (buildReverse m)) db files

/-- Step 3 of `process_vehicle_weights` for one file (lines 582–627). -/
def vehicleWeightFileStep (rev : List (String × List SVal)) (db : DB)
    (f : InputFile) : Except String DB :=
  match blueprintDocOf f with
  | none => .ok db
  | some (.error e) => .error e
  | some (.ok (bname, dfs)) =>
    let matched := matchedIds rev bname
    if matched.isEmpty then .ok db
    else
      match iterElems (pyGetD dfs "Exports" (.jarr [])) with
      | .error e => .error e
      | .ok es =>
        match scanChassis es with
        | .error e => .error e
        | .ok total =>
          if 0 < total then
            match firstExportName dfs with
            | .error e => .error e
            | .ok bpv =>
              match toSValE bpv with
              | .error e => .error e
              | .ok bp =>
                .ok { db with
                  vehicle_weights := matched.foldl
                    (fun t vid => upsertBy (fun r => r.1) t (vid, SVal.num total, bp))
                    db.vehicle_weights }
          else .ok db

/-- `process_vehicle_weights` (lines 553–630). -/
def processVehicleWeights (db : DB) (files : List InputFile) : Except String DB := do
  let m ← buildVehicleMap db
  foldE (vehicleWeightFileStep (buildReverse m)) db files

/-- The whole data pipeline of `main` (lines 752–762): phase 1 (primary
tables) then phase 2 (derived weights and bed specs); phase 3 only defines
views, modelled below as query functions. -/
def runPipeline (files : List InputFile) : Except String DB := do
  let db1 ← processVehicles DB.empty files
  let db2 ← processParts db1 files
  let db3 ← processCargos db2 files
  let db4 ← processCargoWeights db3 files
  let db5 ← processBeds db4 files
  processVehicleWeights db5 files

/-! ## Views

The views are read-time queries; they are modelled as functions of the
database state.  SQL three-valued comparisons are modelled for the stored
fragment actually produced by the pipeline (NULL, numbers, text); the
claims about views carry typing hypotheses placing the compared columns in
that fragment, so SQLite's affinity conversions and cross-class orderings
never fire. -/

/-- SQL `=` / `!=` between two storage values: NULL when either side is
NULL. -/
def sqlEq (a b : SVal) : Option Bool :=
  match a, b with
  | .null, _ => none
  | _, .null => none
  | a, b => some (a = b)

/-- A WHERE clause keeps a row only when its condition is TRUE. -/
def sqlTrue : Option Bool → Bool
  | some true => true
  | _ => false

/-- The WHERE condition of `active_cargos` (lines 657–659):
`(is_deprecated = 0 OR is_deprecated IS NULL) AND actor_class_path IS NOT
NULL AND actor_class_path != ''`. -/
def whereActive (c : CargoRow) : Bool :=
  (sqlTrue (sqlEq c.is_deprecated (.num 0)) || decide (c.is_deprecated = .null)) &&
  decide (c.actor_class_path ≠ .null) &&
  sqlTrue ((sqlEq c.actor_class_path (.text "")).map (fun b => !b))

/-- The `active_cargos` view (lines 649–660): cargos passing the filter,
left-joined with `cargo_weights` on the cargo id; the joined columns are
`(total_weight_kg, blueprint_path)` when a weight row matches. -/
def activeCargosView (db : DB) : List (CargoRow × Option (SVal × SVal)) :=
  db.cargos.flatMap (fun c =>
    if whereActive c then
      match db.cargo_weights.filter (fun w => sEqb w.1 c.id) with
      | [] => [(c, none)]
      | ws => ws.map (fun w => (c, some (w.2.1, w.2.2)))
    else [])

/-- `COALESCE(x, 0)` read as a number; non-numeric text converts to 0 in
SQL arithmetic (numeric-looking text lies outside the typed fragment the
view claims assume). -/
def numOr0 : SVal → ℚ
  | .num q => q
  | _ => 0

/-- The WHERE condition of the parts subquery (line 721):
`mass_kg IS NOT NULL AND mass_kg > 0`.  An unconvertible TEXT value sorts
above every number in SQLite, hence `true`; the view claims' typing
hypotheses exclude text masses. -/
def massPosWhere : SVal → Bool
  | .null => false
  | .num q => decide (0 < q)
  | .text _ => true

/-- Whether a storage value is TEXT.  The weight-view claims assume the
mass columns hold no text (the pipeline only ever binds numbers or NULL
there); the hypothesis is phrased through this decidable test. -/
def sIsText : SVal → Bool
  | .text _ => true
  | _ => false

/-- The joined rows of the subquery (lines 714–722) before grouping:
`(vehicle_id, mass_kg)` for every default-part assignment joined to an
existing part whose mass passes the filter. -/
def partsJoined (db : DB) : List (SVal × SVal) :=
  db.vehicle_default_parts.flatMap (fun a =>
    (db.vehicle_parts.filter (fun p => sEqb a.2.2 p.id && massPosWhere p.mass_kg)).map
      (fun p => (a.1, p.mass_kg)))

/-- `GROUP BY vehicle_id` with `SUM(mass_kg)` and `COUNT(id)`: one row per
distinct key (COUNT counts the joined rows; their part ids are non-NULL
because the join condition already rejects NULL). -/
def firstDedup : List SVal → List SVal
  | [] => []
  | x :: xs => x :: (firstDedup xs).filter (fun y => decide (y ≠ x))

def sqlGroupBy (l : List (SVal × SVal)) : List (SVal × ℚ × ℕ) :=
  (firstDedup (l.map (fun r => r.1))).map (fun k =>
    (k, qsum ((l.filter (fun r => decide (r.1 = k))).map (fun r => numOr0 r.2)),
     (l.filter (fun r => decide (r.1 = k))).length))

/-- One output row of `vehicles_with_weight` (lines 700–724). -/
structure VWRow where
  id : SVal
  name : SVal
  vehicle_type : SVal
  truck_class : SVal
  cost : SVal
  chassis_mass_kg : ℚ
  parts_weight_kg : ℚ
  total_weight_kg : ℚ
  part_count : ℕ
deriving DecidableEq, Repr, Inhabited

/-- The `vehicles_with_weight` view (lines 700–724): vehicles left-joined
with `vehicle_weights` and with the grouped parts subquery, all sums
COALESCEd over 0. -/
def vehiclesWithWeight (db : DB) : List VWRow :=
  let pw := sqlGroupBy (partsJoined db)
  db.vehicles.flatMap (fun v =>
    let chs : List SVal :=
      match db.vehicle_weights.filter (fun w => sEqb w.1 v.id) with
      | [] => [SVal.null]
      | ws => ws.map (fun w => w.2.1)
    chs.map (fun ch =>
      let pq : ℚ × ℕ :=
        match pw.find? (fun p => sEqb p.1 v.id) with
        | some p => (p.2.1, p.2.2)
        | none => (0, 0)
      { id := v.id, name := v.name, vehicle_type := v.vehicle_type,
        truck_class := v.truck_class, cost := v.cost,
        chassis_mass_kg := numOr0 ch, parts_weight_kg := pq.1,
        total_weight_kg := qadd (numOr0 ch) pq.1, part_count := pq.2 }))

/-! ## Specification-side functions

These follow the wording of individual spec sentences, to be compared with
the functions above that follow the source. -/

/-- Modelled from the claim sentence for `strip_enum`: the substring after
the last occurrence of the separator token, where occurrences are counted
at every starting position (the rightmost one wins, even when it overlaps
an earlier one). -/
def afterLastOcc : List Char → Option (List Char)
  | [] => none
  | [_] => none
  | a :: b :: rest =>
    match afterLastOcc (b :: rest) with
    | some r => some r
    | none => if a = ':' ∧ b = ':' then some rest else none

/-- The final slash-separated segment of a path, computed from the right
(independent of `splitSlash`). -/
def lastSlashSeg (l : List Char) : List Char :=
  (l.reverse.takeWhile (fun c => decide (c ≠ '/'))).reverse

/-- Modelled from the claim sentence for blueprint keys: the path's final
slash-separated segment with only a *trailing* `_C` removed, for every
non-empty path. -/
def keyClaimC3 (s : String) : Option String :=
  if s.data.isEmpty then none
  else
    let seg := lastSlashSeg s.data
    if seg.reverse.take 2 = ['C', '_'] then
      some (String.mk (seg.dropLast.dropLast))
    else some (String.mk seg)

/-- Modelled from the claim sentence for `get_object_path`: for an
Import/Export mapping return the `Path` attribute whenever it is present,
otherwise the `ObjectName` attribute; absent for everything else. -/
def getObjectPathClaim (obj : JVal) : Option JVal :=
  match obj with
  | .jobj fs =>
    if isStr (pyGet fs "Type") "Import" || isStr (pyGet fs "Type") "Export" then
      match jlookup fs "Path" with
      | some p => some p
      | none => jlookup fs "ObjectName"
    else none
  | _ => none

/-! ## Fold characterisations used by the replacement/accumulation claims -/

/-- `t.find?` by primary key. -/
def findByKey (key : α → SVal) (t : List α) (k : SVal) : Option α :=
  t.find? (fun x => decide (key x = k))

/-- Number of rows with a given primary key. -/
def countKey (key : α → SVal) (t : List α) (k : SVal) : ℕ :=
  (t.filter (fun x => decide (key x = k))).length

/-- The row list a tabular file contributes: `some rows` when the file
passes the filename filter and the `DataTable` guard and `Rows` is present
and iterable, `none` otherwise (skip or error). -/
def tabularFileRows (recog : String → Bool) (f : InputFile) : Option (List JVal) :=
  if recog f.name = false then none else
  match f.data with
  | .jobj topfs =>
    match (jlookup topfs "Data").getD (.jobj []) with
    | .jobj dfs =>
      if isStr (pyGet dfs "Type") "DataTable" = false then none
      else
        match jlookup dfs "Rows" with
        | none => none
        | some rowsVal => (iterElems rowsVal).toOption
    | _ => none
  | _ => none

/-- The extraction of the last row of a row list whose id is `i` (later
rows take precedence, matching `INSERT OR REPLACE` order). -/
def lastVehicleRowWith (fname : String) (i : SVal) : List JVal → Option VehicleRow
  | [] => none
  | r :: rs =>
    (lastVehicleRowWith fname i rs).orElse (fun _ =>
      match extractVehicle fname r with
      | .ok (v, _, _) => if v.id = i then some v else none
      | .error _ => none)

def lastCargoRowWith (fname : String) (i : SVal) : List JVal → Option CargoRow
  | [] => none
  | r :: rs =>
    (lastCargoRowWith fname i rs).orElse (fun _ =>
      match extractCargo fname r with
      | .ok (c, _) => if c.id = i then some c else none
      | .error _ => none)

def lastPartRowWith (fname : String) (i : SVal) : List JVal → Option PartRow
  | [] => none
  | r :: rs =>
    (lastPartRowWith fname i rs).orElse (fun _ =>
      match extractPart fname r with
      | .ok (p, _) => if p.id = i then some p else none
      | .error _ => none)

/-- All tag rows a vehicle row list contributes, in insertion order. -/
def vehicleTagsOf (fname : String) (rows : List JVal) : List (SVal × SVal) :=
  rows.flatMap (fun r =>
    match extractVehicle fname r with
    | .ok (_, ts, _) => ts
    | .error _ => [])

/-- All default-part rows a vehicle row list contributes. -/
def vehicleDefaultPartsOf (fname : String) (rows : List JVal) :
    List (SVal × SVal × SVal) :=
  rows.flatMap (fun r =>
    match extractVehicle fname r with
    | .ok (_, _, ps) => ps
    | .error _ => [])

/-- All space-type rows a cargo row list contributes. -/
def cargoSpaceTypesOf (fname : String) (rows : List JVal) : List (SVal × SVal) :=
  rows.flatMap (fun r =>
    match extractCargo fname r with
    | .ok (_, ss) => ss
    | .error _ => [])

/-- All compatible-type rows a parts row list contributes. -/
def partTypesOf (fname : String) (rows : List JVal) : List (SVal × SVal) :=
  rows.flatMap (fun r =>
    match extractPart fname r with
    | .ok (_, cs) => cs
    | .error _ => [])

/-! ## Claim-side view characterisations -/

/-- The chassis mass the claim attributes to a vehicle: its derived weight
row's mass, zero when absent. -/
def chassisOf (db : DB) (vid : SVal) : ℚ :=
  match db.vehicle_weights.find? (fun w => sEqb w.1 vid) with
  | some w => numOr0 w.2.1
  | none => 0

/-- The masses the claim counts for a vehicle: one entry per default-part
assignment joined to an existing part whose mass is a known positive
number. -/
def qualPartMassList (db : DB) (vid : SVal) : List ℚ :=
  (db.vehicle_default_parts.filter (fun a => sEqb a.1 vid)).flatMap (fun a =>
    (db.vehicle_parts.filter (fun p => sEqb a.2.2 p.id)).filterMap (fun p =>
      match p.mass_kg with
      | .num q => if 0 < q then some q else none
      | _ => none))

/-! ## Concrete data for witnesses and counterexamples -/

/-- A `DataTable` file body around a list of rows. -/
def mkTable (rows : List JVal) : JVal :=
  .jobj [("Data", .jobj [("Type", .jstr "DataTable"), ("Rows", .jarr rows)])]

/-- A `Blueprint` file body around a list of exports. -/
def mkBlueprint (es : List JVal) : JVal :=
  .jobj [("Data", .jobj [("Type", .jstr "Blueprint"), ("Exports", .jarr es)])]

/-- An export whose `BodyInstance` carries a mass override. -/
def mkExport (n : String) (m : ℚ) : JVal :=
  .jobj [("ExportName", .jstr n),
         ("Properties", .jobj [("BodyInstance", .jobj [("MassInKgOverride", .jnum m)])])]

/-- A cargo row with a malformed inner weight-range payload: the outer
wrapper is a dict, the doubly-nested payload a string. -/
def cargoBadRow : JVal :=
  .jobj [("RowName", .jstr "c1"),
         ("WeightRange", .jobj [("WeightRange", .jstr "bad")])]

def cargoBadFile : InputFile := ⟨"Cargos.json", mkTable [cargoBadRow]⟩

/-- A cargo-bed row whose `CargoBed` is truthy but carries no size data. -/
def bedZeroFile : InputFile :=
  ⟨"CargoBedFlat.json",
   mkTable [.jobj [("RowName", .jstr "B1"),
                   ("CargoBed", .jobj [("bFixCargo", .jbool false)])]]⟩

/-- Vehicle scenario files: one vehicle whose class path ends in `V1_C`,
one default engine part of mass 150, one blueprint `V1_parsed.json`
contributing a 200 mass override. -/
def vehicleScnRow : JVal :=
  .jobj [("RowName", .jstr "V1"), ("Cost", .jnum 1000),
         ("VehicleType", .jstr "EType::Truck"),
         ("VehicleClass", .jobj [("Type", .jstr "Export"),
                                 ("Path", .jstr "/Game/Cars/V1/V1_C")]),
         ("Parts", .jobj [("_Type", .jstr "Map"),
           ("Entries", .jarr [.jobj [("Key", .jstr "EMTPartSlot::Engine"),
                                     ("Value", .jstr "E1")]])])]

def vehicleScnFile : InputFile := ⟨"Vehicles.json", mkTable [vehicleScnRow]⟩

def engineScnFile : InputFile :=
  ⟨"Engines.json", mkTable [.jobj [("RowName", .jstr "E1"), ("MassKg", .jnum 150)]]⟩

def blueprintScnFile : InputFile := ⟨"V1_parsed.json", mkBlueprint [mkExport "V1Bp" 200]⟩

/-- The database produced by the pipeline on the vehicle scenario. -/
def scnDB : DB :=
  ((runPipeline [vehicleScnFile, engineScnFile, blueprintScnFile]).toOption).getD DB.empty

/-- Cargo fan-out scenario: two cargos whose actor paths both derive the
blueprint key `Box`, and one matching blueprint with two components. -/
def cargoFanFile : InputFile :=
  ⟨"Cargos.json",
   mkTable [.jobj [("RowName", .jstr "CargoA"),
              ("ActorClass", .jobj [("Type", .jstr "Export"),
                                    ("Path", .jstr "/Game/Box/Box_C")])],
            .jobj [("RowName", .jstr "CargoB"),
              ("ActorClass", .jobj [("Type", .jstr "Export"),
                                    ("Path", .jstr "/Game/Other/Box_C")])]]⟩

def boxBlueprintFile : InputFile :=
  ⟨"Box_parsed.json", mkBlueprint [mkExport "BoxRoot" 30, mkExport "BoxLid" 70]⟩

/-- An irrelevant blueprint contributing no mass to anything. -/
def emptyBlueprintFile : InputFile :=
  ⟨"OtherBox_parsed.json", mkBlueprint [.jobj [("ExportName", .jstr "O1"), ("Properties", .jobj [])]]⟩

def fanDB : DB :=
  ((processCargos DB.empty [cargoFanFile]).toOption).getD DB.empty

/-- Two vehicle files re-defining id `V1` with different costs, and two
cargo files re-defining id `C1` with different volumes. -/
def vFileA : InputFile :=
  ⟨"Vehicles.json", mkTable [.jobj [("RowName", .jstr "V1"), ("Cost", .jnum 100)]]⟩
def vFileB : InputFile :=
  ⟨"Vehicles2.json", mkTable [.jobj [("RowName", .jstr "V1"), ("Cost", .jnum 999)]]⟩
def cFileA : InputFile :=
  ⟨"Cargos.json", mkTable [.jobj [("RowName", .jstr "C1"), ("VolumeSize", .jnum 1)]]⟩
def cFileB : InputFile :=
  ⟨"Cargos2.json", mkTable [.jobj [("RowName", .jstr "C1"), ("VolumeSize", .jnum 7)]]⟩

/-- A vehicle file with a tag and a default part, used to show child-row
accumulation, and a parts file with a compatible type. -/
def vDupRowW : JVal :=
  .jobj [("RowName", .jstr "V1"),
    ("GameplayTags", .jobj [("GameplayTags", .jarr [.jstr "Tag.A"])]),
    ("Parts", .jobj [("_Type", .jstr "Map"),
      ("Entries", .jarr [.jobj [("Key", .jstr "S::Engine"), ("Value", .jstr "E1")]])])]

def cDupRowW : JVal :=
  .jobj [("RowName", .jstr "C1"),
    ("CargoSpaceTypes", .jarr [.jstr "EMTSpace::Flat"])]

def pDupRowW : JVal :=
  .jobj [("RowName", .jstr "E1"),
    ("VehicleTypes", .jarr [.jstr "EMTVehicleType::Truck"])]

def vDupFile : InputFile := ⟨"Vehicles.json", mkTable [vDupRowW]⟩

def cDupFile : InputFile := ⟨"Cargos.json", mkTable [cDupRowW]⟩

def pDupFile : InputFile := ⟨"Engines.json", mkTable [pDupRowW]⟩

/-- The vehicle row extracted from `vDupRowW`. -/
def c10VehRow : VehicleRow :=
  ⟨.text "V1", .null, .text "", .text "", .null, .null, .null, .null, .null,
   .null, .null, .null, .null, .null, .null, .null, .null, .null, .null,
   .text "Vehicles.json"⟩

/-- A small database for the active-cargos witness: one deprecated cargo,
one with an empty path, one valid with no weight row, one valid with a
weight row. -/
def c8Cargo (i : String) (dep : SVal) (path : SVal) : CargoRow :=
  { (default : CargoRow) with
    id := SVal.text i
    is_deprecated := dep
    actor_class_path := path }

def c8DB : DB :=
  { DB.empty with
    cargos := [c8Cargo "dep" (.num 1) (.text "/G/A_C"),
               c8Cargo "nopath" .null .null,
               c8Cargo "emptypath" (.num 0) (.text ""),
               c8Cargo "plain" .null (.text "/G/B_C"),
               c8Cargo "weighted" (.num 0) (.text "/G/C_C")],
    cargo_weights := [(.text "weighted", .num 42, .text "CBp")] }

/-- The `Import`-typed object with a present-but-empty `Path` used to
separate `get_object_path` from the claim's reading. -/
def c6Obj : JVal :=
  .jobj [("Type", .jstr "Import"), ("Path", .jstr ""), ("ObjectName", .jstr "X")]

/-- The cargo row produced when every source field except the row name is
absent: every output column is null or its documented default. -/
def defaultCargoRow (fname i : String) : CargoRow :=
  ⟨.text i, .null, .text "", .null, .num 0, .num 0, .null, .null, .null,
   .null, .null, .null, .null, .null, .null, .null, .null, .null, .null,
   .null, .null, .null, .null, .null, .null, .null, .null, .null,
   .text fname⟩

/-- The vehicle row extracted from `vFileB`'s single record. -/
def c4VehRow : VehicleRow :=
  ⟨.text "V1", .null, .text "", .text "", .null, .num 999, .null, .null, .null,
   .null, .null, .null, .null, .null, .null, .null, .null, .null, .null,
   .text "Vehicles2.json"⟩

/-- The cargo row extracted from `cFileB`'s single record. -/
def c4CargoRow : CargoRow :=
  { defaultCargoRow "Cargos2.json" "C1" with volume_size := SVal.num 7 }

def c4VehDB : DB :=
  ((processVehicles DB.empty [vFileA, vFileB]).toOption).getD DB.empty

def c4CargoDB : DB :=
  ((processCargos DB.empty [cFileA, cFileB]).toOption).getD DB.empty

def c10VehDB1 : DB :=
  ((processVehiclesFile DB.empty vDupFile).toOption).getD DB.empty
def c10VehDB2 : DB :=
  ((processVehiclesFile c10VehDB1 vDupFile).toOption).getD DB.empty
def c10CargoDB1 : DB :=
  ((processCargosFile DB.empty cDupFile).toOption).getD DB.empty
def c10CargoDB2 : DB :=
  ((processCargosFile c10CargoDB1 cDupFile).toOption).getD DB.empty
def c10PartDB1 : DB :=
  ((processPartsFile DB.empty pDupFile).toOption).getD DB.empty
def c10PartDB2 : DB :=
  ((processPartsFile c10PartDB1 pDupFile).toOption).getD DB.empty

/-- The reverse blueprint index built from the fan-out scenario cargos. -/
def fanRev : List (String × List SVal) :=
  buildReverse (((buildCargoMap fanDB).toOption).getD [])

/-- The fan-out scenario database after processing the `Box` blueprint. -/
def fanDB2 : DB :=
  ((cargoWeightFileStep fanRev fanDB boxBlueprintFile).toOption).getD DB.empty

/-- A literal reverse index matching the `V1` blueprint to vehicle `V1`. -/
def vwRev : List (String × List SVal) := [("V1", [.text "V1"])]

def vwDB2 : DB :=
  ((vehicleWeightFileStep vwRev DB.empty blueprintScnFile).toOption).getD DB.empty

/-- A reverse index matching the massless `OtherBox` blueprint. -/
def zeroRev : List (String × List SVal) := [("OtherBox", [.text "CargoZ"])]

/-- The database produced by the zero-size bed-spec row. -/
def bedZeroDB : DB :=
  ((processBeds DB.empty [bedZeroFile]).toOption).getD DB.empty

/-!
# Theorems
-/

/-! ## Arithmetic bridges -/

theorem qadd_eq_add (a b : ℚ) : qadd a b = a + b := (Rat.add_def' a b).symm

theorem qsum_eq_sum (l : List ℚ) : qsum l = l.sum := by
  induction l with
  | nil => rfl
  | cons x xs ih => simp [qsum, List.foldr_cons, qadd_eq_add] at ih ⊢; rw [ih]

/-! ## `strip_enum` (claim C5) -/

theorem hasSep_eq_isSome (s : List Char) : hasSep s = (tailAfterSeps s).isSome := by
  induction s with
  | nil => rfl
  | cons a t ih =>
    cases t with
    | nil => rfl
    | cons b rest =>
      by_cases h : a = ':' ∧ b = ':'
      · simp [hasSep, tailAfterSeps, h]
      · simpa [hasSep, tailAfterSeps, h] using ih

theorem tailAfterSeps_spec (s t : List Char) (h : tailAfterSeps s = some t) :
    hasSep t = false ∧ ∃ u, s = u ++ ':' :: ':' :: t := by
  induction s using tailAfterSeps.induct generalizing t with
  | case1 => simp [tailAfterSeps] at h
  | case2 => simp [tailAfterSeps] at h
  | case3 a b rest hab ih =>
    rw [tailAfterSeps, if_pos hab] at h
    obtain ⟨rfl, rfl⟩ : a = ':' ∧ b = ':' := hab
    cases htail : tailAfterSeps rest with
    | some r =>
      rw [htail] at h
      simp only [Option.getD_some, Option.some.injEq] at h
      subst h
      obtain ⟨h1, u, h2⟩ := ih _ htail
      exact ⟨h1, ':' :: ':' :: u, by simp [h2]⟩
    | none =>
      rw [htail] at h
      simp only [Option.getD_none, Option.some.injEq] at h
      subst h
      refine ⟨?_, [], rfl⟩
      rw [hasSep_eq_isSome, htail]
      rfl
  | case4 a b rest hab ih =>
    rw [tailAfterSeps, if_neg hab] at h
    obtain ⟨h1, u, h2⟩ := ih _ h
    exact ⟨h1, a :: u, by simp [h2]⟩

theorem strip_enum_of_no_sep {s : List Char} (h : hasSep s = false) :
    strip_enum s = s := by
  simp [strip_enum, h]

theorem strip_enum_spec (s : List Char) (h : hasSep s = true) :
    hasSep (strip_enum s) = false ∧ ∃ u, s = u ++ ':' :: ':' :: strip_enum s := by
  have hsome : (tailAfterSeps s).isSome := by rw [← hasSep_eq_isSome, h]
  obtain ⟨t, ht⟩ := Option.isSome_iff_exists.mp hsome
  have hst : strip_enum s = t := by simp [strip_enum, h, ht]
  rw [hst]
  exact tailAfterSeps_spec s t ht

/-- Claim C5 (amended): `strip_enum` is total and idempotent; a string
without the separator token is returned unchanged; a string containing the
token maps to a suffix that immediately follows a token occurrence and
itself contains no further occurrence (for overlapping occurrences this
need not be the substring after the rightmost occurrence, see the
counterexample). -/
theorem strip_enum_characterisation :
    (∀ s : List Char, strip_enum (strip_enum s) = strip_enum s) ∧
    (∀ s : List Char, hasSep s = false → strip_enum s = s) ∧
    (∀ s : List Char, hasSep s = true →
      hasSep (strip_enum s) = false ∧ ∃ u, s = u ++ ':' :: ':' :: strip_enum s) := by
  refine ⟨fun s => ?_, fun s h => strip_enum_of_no_sep h, fun s h => strip_enum_spec s h⟩
  cases h : hasSep s with
  | false => rw [strip_enum_of_no_sep h]; exact strip_enum_of_no_sep h
  | true => exact strip_enum_of_no_sep (strip_enum_spec s h).1

/-- Witness for C5 at concrete strings. -/
theorem strip_enum_characterisation_w :
    strip_enum "plain".data = "plain".data ∧
    strip_enum (strip_enum "EMTVehicleType::Small".data) =
      strip_enum "EMTVehicleType::Small".data ∧
    hasSep (strip_enum "EMTVehicleType::Small".data) = false :=
  ⟨strip_enum_characterisation.2.1 _ (by decide),
   strip_enum_characterisation.1 _,
   (strip_enum_characterisation.2.2 _ (by decide)).1⟩

/-- Counterexample to C5 as stated: in `"a:::b"` the token's last
occurrence starts at the third character, so the substring after the last
occurrence is `"b"`, but the code returns `":b"` (Python `split` consumes
occurrences left to right without overlap). -/
theorem strip_enum_cex :
    stripEnum "a:::b" = ":b" ∧
    afterLastOcc "a:::b".data = some "b".data ∧
    stripEnum "a:::b" ≠ String.mk ((afterLastOcc "a:::b".data).getD []) :=
  ⟨by decide, by decide, by decide⟩

/-! ## `get_object_path` (claim C6) -/

/-- Claim C6 (amended): extraction yields absent exactly where the claim
does (non-mappings, other discriminators), and agrees with the claim's
prefer-`Path`-else-`ObjectName` rule whenever `Path` is absent or truthy;
when `Path` is present but falsy, the code instead returns the
`ObjectName` value. -/
theorem get_object_path_characterisation :
    (∀ obj : JVal, getObjectPathClaim obj = none → get_object_path obj = .jnull) ∧
    (∀ fs, jlookup fs "Path" = none ∨ pyTruthy (pyGet fs "Path") = true →
      get_object_path (.jobj fs) = (getObjectPathClaim (.jobj fs)).getD .jnull) ∧
    (∀ fs p, jlookup fs "Path" = some p → pyTruthy p = false →
      (isStr (pyGet fs "Type") "Import" || isStr (pyGet fs "Type") "Export") = true →
      get_object_path (.jobj fs) = pyGet fs "ObjectName") := by
  refine ⟨?_, ?_, ?_⟩
  · intro obj h
    cases obj with
    | jobj fs =>
      simp only [get_object_path, getObjectPathClaim] at h ⊢
      by_cases hie :
          (isStr (pyGet fs "Type") "Import" || isStr (pyGet fs "Type") "Export") = true
      · rw [if_pos hie] at h ⊢
        cases hp : jlookup fs "Path" with
        | some p => rw [hp] at h; exact absurd h (by simp)
        | none =>
          rw [hp] at h
          have hobj : jlookup fs "ObjectName" = none := h
          simp [pyOr, pyGet, hp, hobj, pyTruthy]
      · rw [if_neg hie]
    | jnull => rfl
    | jbool b => rfl
    | jnum q => rfl
    | jstr s => rfl
    | jarr xs => rfl
  · intro fs h
    simp only [get_object_path, getObjectPathClaim]
    by_cases hie :
        (isStr (pyGet fs "Type") "Import" || isStr (pyGet fs "Type") "Export") = true
    · rw [if_pos hie, if_pos hie]
      cases hp : jlookup fs "Path" with
      | some p =>
        have htr : pyTruthy p = true := by
          rcases h with h | h
          · rw [hp] at h; exact absurd h (by simp)
          · rwa [pyGet, hp, Option.getD_some] at h
        simp [pyOr, pyGet, hp, htr]
      | none =>
        have hfal : pyTruthy (pyGet fs "Path") = false := by
          simp [pyGet, hp, pyTruthy]
        simp only [pyOr, hfal, if_neg (by simp : ¬ false = true)]
        cases ho : jlookup fs "ObjectName" with
        | some v => simp [pyGet, ho]
        | none => simp [pyGet, ho]
    · rw [if_neg hie, if_neg hie]; rfl
  · intro fs p hp hfal hie
    have hfal' : pyTruthy (pyGet fs "Path") = false := by simp [pyGet, hp, hfal]
    simp [get_object_path, hie, pyOr, hfal']

/-- Witness for C6 at concrete inputs. -/
theorem get_object_path_characterisation_w :
    get_object_path (.jnum 5) = .jnull ∧
    get_object_path (.jobj [("Type", .jstr "Export"), ("Path", .jstr "/P")]) =
      (getObjectPathClaim (.jobj [("Type", .jstr "Export"), ("Path", .jstr "/P")])).getD .jnull ∧
    get_object_path c6Obj = pyGet [("Type", JVal.jstr "Import"), ("Path", .jstr ""),
      ("ObjectName", .jstr "X")] "ObjectName" :=
  ⟨get_object_path_characterisation.1 _ rfl,
   get_object_path_characterisation.2.1 _ (Or.inr (by decide)),
   get_object_path_characterisation.2.2 _ _ rfl (by decide) (by decide)⟩

/-- Counterexample to C6 as stated: the `Path` attribute of `c6Obj` is
available (present, the empty string), yet the code returns the
`ObjectName` value `"X"` instead. -/
theorem get_object_path_cex :
    getObjectPathClaim c6Obj = some (.jstr "") ∧
    get_object_path c6Obj = .jstr "X" ∧
    JVal.jstr "X" ≠ JVal.jstr "" :=
  ⟨rfl, rfl, by simp⟩

/-! ## Blueprint-key derivation (claim C3) -/

theorem takeWhile_append_neg (p : Char → Bool) (xs : List Char) (y : Char)
    (hy : p y = false) : (xs ++ [y]).takeWhile p = xs.takeWhile p := by
  induction xs with
  | nil => simp [List.takeWhile_cons, hy]
  | cons x xs ih =>
    by_cases hx : p x
    · simp [List.takeWhile_cons, hx, ih]
    · simp [List.takeWhile_cons, hx]

theorem takeWhile_append_pos (p : Char → Bool) (xs : List Char) (y : Char)
    (hy : p y = true) :
    (xs ++ [y]).takeWhile p =
      if xs.takeWhile p = xs then xs ++ [y] else xs.takeWhile p := by
  induction xs with
  | nil => simp [hy]
  | cons x xs ih =>
    by_cases hx : p x
    · simp only [List.cons_append, List.takeWhile_cons, hx, if_true]
      rw [ih]
      by_cases hxs : xs.takeWhile p = xs
      · simp [hxs]
      · simp [hxs]
    · simp [List.takeWhile_cons, hx]

theorem takeWhile_eq_self_of_all (p : Char → Bool) (xs : List Char)
    (h : ∀ x ∈ xs, p x = true) : xs.takeWhile p = xs := by
  induction xs with
  | nil => rfl
  | cons x xs ih =>
    rw [List.takeWhile_cons, if_pos (h x (by simp))]
    rw [ih (fun z hz => h z (by simp [hz]))]

theorem takeWhile_ne_self_of_mem (p : Char → Bool) (xs : List Char) (x : Char)
    (hx : x ∈ xs) (hp : p x = false) : xs.takeWhile p ≠ xs := by
  induction xs with
  | nil => cases hx
  | cons z xs ih =>
    rw [List.takeWhile_cons]
    by_cases hz : p z
    · rw [if_pos hz]
      have hx' : x ∈ xs := by
        rcases List.mem_cons.mp hx with rfl | hx'
        · exact absurd hz (by simp [hp])
        · exact hx'
      intro hcon
      injection hcon with _ h2
      exact ih hx' h2
    · rw [if_neg hz]
      intro hcon
      exact List.cons_ne_nil z xs hcon.symm

theorem splitSlash_ne_nil (l : List Char) : splitSlash l ≠ [] := by
  cases l with
  | nil => simp [splitSlash]
  | cons c rest =>
    simp only [splitSlash]
    split
    · simp
    · split <;> simp

theorem splitSlash_of_no_slash (l : List Char) (h : '/' ∉ l) : splitSlash l = [l] := by
  induction l with
  | nil => rfl
  | cons c rest ih =>
    have hc : ¬ c = '/' := fun hcc => h (by simp [hcc])
    rw [splitSlash, if_neg hc, ih (fun hm => h (by simp [hm]))]

theorem splitSlash_length_one_iff (l : List Char) :
    (splitSlash l).length = 1 ↔ '/' ∉ l := by
  induction l with
  | nil => simp [splitSlash]
  | cons c rest ih =>
    by_cases hc : c = '/'
    · subst hc
      rw [splitSlash, if_pos rfl]
      simp only [List.length_cons]
      constructor
      · intro h
        exact absurd (List.length_eq_zero.mp (by omega)) (splitSlash_ne_nil rest)
      · intro h
        exact absurd (List.mem_cons_self '/' rest) h
    · rw [splitSlash, if_neg hc]
      cases hsp : splitSlash rest with
      | nil => exact absurd hsp (splitSlash_ne_nil rest)
      | cons chunk chunks =>
        simp only [List.length_cons, List.mem_cons]
        rw [hsp] at ih
        simp only [List.length_cons] at ih
        constructor
        · intro h
          intro hm
          rcases hm with rfl | hm
          · exact hc rfl
          · exact (ih.mp h) hm
        · intro h
          exact ih.mpr (fun hm => h (Or.inr hm))

theorem getLastD_of_ne_nil {α : Type} (xs : List α) (d₁ d₂ : α) (h : xs ≠ []) :
    xs.getLastD d₁ = xs.getLastD d₂ := by
  cases xs with
  | nil => exact absurd rfl h
  | cons x xs => rw [List.getLastD_cons, List.getLastD_cons]

theorem splitSlash_getLastD (l : List Char) :
    (splitSlash l).getLastD [] = lastSlashSeg l := by
  induction l with
  | nil => rfl
  | cons c rest ih =>
    by_cases hc : c = '/'
    · subst hc
      rw [splitSlash, if_pos rfl, List.getLastD_cons, ih]
      show lastSlashSeg rest = lastSlashSeg ('/' :: rest)
      unfold lastSlashSeg
      rw [List.reverse_cons, takeWhile_append_neg _ _ _ (by decide)]
    · have hpc : (fun x => decide (x ≠ '/')) c = true := by simp [hc]
      rw [splitSlash, if_neg hc]
      cases hsp : splitSlash rest with
      | nil => exact absurd hsp (splitSlash_ne_nil rest)
      | cons chunk chunks =>
        rw [List.getLastD_cons]
        by_cases hmem : '/' ∈ rest
        · have hchunks : chunks ≠ [] := by
            intro h0
            have h1 : (splitSlash rest).length = 1 := by rw [hsp, h0]; rfl
            exact (splitSlash_length_one_iff rest).mp h1 hmem
          rw [hsp, List.getLastD_cons, getLastD_of_ne_nil _ chunk [] hchunks] at ih
          rw [getLastD_of_ne_nil _ (c :: chunk) [] hchunks, ih]
          have hne : rest.reverse.takeWhile (fun x => decide (x ≠ '/')) ≠ rest.reverse :=
            takeWhile_ne_self_of_mem _ _ '/' (List.mem_reverse.mpr hmem) (by decide)
          show lastSlashSeg rest = lastSlashSeg (c :: rest)
          unfold lastSlashSeg
          rw [List.reverse_cons, takeWhile_append_pos _ _ _ hpc, if_neg hne]
        · have hall : rest.reverse.takeWhile (fun x => decide (x ≠ '/')) = rest.reverse :=
            takeWhile_eq_self_of_all _ _ (fun x hx => by
              simp only [List.mem_reverse] at hx
              simp only [decide_eq_true_eq]
              exact fun hxe => hmem (hxe ▸ hx))
          have h2 : chunk :: chunks = [rest] := by
            rw [← hsp, splitSlash_of_no_slash rest hmem]
          injection h2 with h3 h4
          subst h3; subst h4
          rw [List.getLastD_nil]
          unfold lastSlashSeg
          rw [List.reverse_cons, takeWhile_append_pos _ _ _ hpc, if_pos hall]
          simp

/-- Claim C3 (amended): a blueprint key is derived only for paths that
contain a slash, and then equals the final slash-separated segment with
*every* occurrence of the literal `_C` removed (not only a trailing
one). -/
theorem blueprintKey_characterisation (s : String) :
    blueprintKeyOfPath s =
      if '/' ∈ s.data then some (String.mk (removeUC (lastSlashSeg s.data)))
      else none := by
  simp only [blueprintKeyOfPath]
  by_cases hmem : '/' ∈ s.data
  · have h1 : (splitSlash s.data).length ≠ 1 :=
      fun h => (splitSlash_length_one_iff s.data).mp h hmem
    have h0 : (splitSlash s.data).length ≠ 0 :=
      fun h => splitSlash_ne_nil s.data (List.length_eq_zero.mp h)
    rw [if_pos (show 2 ≤ (splitSlash s.data).length by omega), if_pos hmem,
        splitSlash_getLastD]
  · have h1 : (splitSlash s.data).length = 1 :=
      (splitSlash_length_one_iff s.data).mpr hmem
    rw [if_neg (by omega), if_neg hmem]

/-- Counterexample to C3 as stated: for the path `/Game/X/Big_Cat_C` the
final segment with only the trailing suffix removed would be `Big_Cat`,
but `replace("_C", "")` removes the interior occurrence too and the code
derives `Bigat`. -/
theorem blueprintKey_cex :
    blueprintKeyOfPath "/Game/X/Big_Cat_C" = some "Bigat" ∧
    keyClaimC3 "/Game/X/Big_Cat_C" = some "Big_Cat" ∧
    ("Bigat" : String) ≠ "Big_Cat" :=
  ⟨by decide, by decide, by decide⟩

/-! ## Extractor totality (claim C2) -/

/-- Claim C2 (amended): extraction tolerates absent fields (a record
carrying only its row name yields the all-default row, with a zero/zero
weight range) and an `isinstance`-checked non-mapping outer weight-range
wrapper; but a type-mismatched doubly-nested weight-range payload raises
AttributeError and aborts the file, as does a truthy non-mapping
`CargoBed` value in the bed-spec extractor. -/
theorem extractor_totality :
    (∀ fname i, extractCargo fname (.jobj [("RowName", .jstr i)]) =
      .ok (defaultCargoRow fname i, [])) ∧
    (∀ fname i v, (∀ gs, v ≠ .jobj gs) →
      extractCargo fname (.jobj [("RowName", .jstr i), ("WeightRange", v)]) =
        .ok (defaultCargoRow fname i, [])) ∧
    (∀ fname i w, (∀ gs, w ≠ .jobj gs) →
      extractCargo fname (.jobj [("RowName", .jstr i),
        ("WeightRange", .jobj [("WeightRange", w)])]) = .error "AttributeError") ∧
    (∀ fname db i, bedStep fname db
      (.jobj [("RowName", .jstr i), ("CargoBed", .jstr "oops")]) =
        .error "AttributeError") := by
  refine ⟨fun fname i => rfl, ?_, ?_, fun fname db i => rfl⟩
  · intro fname i v h
    cases v with
    | jobj gs => exact absurd rfl (h gs)
    | jnull => rfl
    | jbool b => rfl
    | jnum q => rfl
    | jstr s => rfl
    | jarr xs => rfl
  · intro fname i w h
    cases w with
    | jobj gs => exact absurd rfl (h gs)
    | jnull => rfl
    | jbool b => rfl
    | jnum q => rfl
    | jstr s => rfl
    | jarr xs => rfl

/-- Witness for C2 at concrete inputs. -/
theorem extractor_totality_w :
    extractCargo "Cargos.json" (.jobj [("RowName", .jstr "c1")]) =
      .ok (defaultCargoRow "Cargos.json" "c1", []) ∧
    extractCargo "Cargos.json"
      (.jobj [("RowName", .jstr "c1"), ("WeightRange", .jarr [])]) =
      .ok (defaultCargoRow "Cargos.json" "c1", []) ∧
    extractCargo "Cargos.json" (.jobj [("RowName", .jstr "c1"),
      ("WeightRange", .jobj [("WeightRange", .jstr "bad")])]) =
      .error "AttributeError" :=
  ⟨extractor_totality.1 "Cargos.json" "c1",
   extractor_totality.2.1 "Cargos.json" "c1" (.jarr []) (fun gs h => by cases h),
   extractor_totality.2.2.1 "Cargos.json" "c1" (.jstr "bad") (fun gs h => by cases h)⟩

/-- Counterexample to C2 as stated: a cargo file containing one record
whose doubly-nested weight range holds a string payload makes the whole
phase raise instead of degrading to the zero/zero default — the extractor
is not total. -/
theorem extractor_totality_cex :
    processCargos DB.empty [cargoBadFile] = .error "AttributeError" := rfl

/-! ## Upsert and fold lemmas (claims C4 and C10) -/

theorem find?_filter_of_imp (p q : α → Bool) (t : List α)
    (h : ∀ y, p y = true → q y = true) : (t.filter q).find? p = t.find? p := by
  induction t with
  | nil => rfl
  | cons z t ih =>
    by_cases hq : q z = true
    · rw [List.filter_cons_of_pos hq]
      by_cases hp : p z = true
      · rw [List.find?_cons_of_pos _ hp, List.find?_cons_of_pos _ hp]
      · rw [List.find?_cons_of_neg _ (by simpa using hp),
            List.find?_cons_of_neg _ (by simpa using hp), ih]
    · rw [List.filter_cons_of_neg (by simpa using hq)]
      have hp : ¬ p z = true := fun hpz => hq (h z hpz)
      rw [ih, List.find?_cons_of_neg _ (by simpa using hp)]

theorem findByKey_upsert_self (key : α → SVal) (t : List α) (x : α) :
    findByKey key (upsertBy key t x) (key x) = some x := by
  unfold findByKey upsertBy
  rw [List.find?_append]
  have h1 : (t.filter fun y => decide (key y ≠ key x)).find?
      (fun y => decide (key y = key x)) = none := by
    rw [List.find?_eq_none]
    intro y hy
    have hmem := (List.mem_filter.mp hy).2
    simp only [decide_eq_true_eq] at hmem ⊢
    exact hmem
  rw [h1]
  simp

theorem findByKey_upsert_other (key : α → SVal) (t : List α) (x : α) (k : SVal)
    (h : k ≠ key x) : findByKey key (upsertBy key t x) k = findByKey key t k := by
  unfold findByKey upsertBy
  rw [List.find?_append, find?_filter_of_imp _ _ _ (fun y hy => by
    simp only [decide_eq_true_eq] at hy ⊢
    rw [hy]
    exact h)]
  have h2 : List.find? (fun y => decide (key y = k)) [x] = none := by
    rw [List.find?_eq_none]
    intro y hy
    rw [List.mem_singleton] at hy
    subst hy
    simp only [decide_eq_true_eq]
    exact fun hk => h hk.symm
  rw [h2]
  cases List.find? (fun y => decide (key y = k)) t <;> rfl

theorem countKey_upsert_self (key : α → SVal) (t : List α) (x : α) :
    countKey key (upsertBy key t x) (key x) = 1 := by
  unfold countKey upsertBy
  rw [List.filter_append]
  have h1 : (t.filter fun y => decide (key y ≠ key x)).filter
      (fun y => decide (key y = key x)) = [] := by
    rw [List.filter_eq_nil_iff]
    intro y hy
    have hmem := (List.mem_filter.mp hy).2
    simp only [decide_eq_true_eq] at hmem ⊢
    exact hmem
  rw [h1]
  simp

theorem countKey_upsert_other (key : α → SVal) (t : List α) (x : α) (k : SVal)
    (h : k ≠ key x) : countKey key (upsertBy key t x) k = countKey key t k := by
  unfold countKey upsertBy
  rw [List.filter_append, List.filter_filter]
  have h2 : List.filter (fun y => decide (key y = k)) [x] = [] := by
    rw [List.filter_eq_nil_iff]
    intro y hy
    rw [List.mem_singleton] at hy
    subst hy
    simp only [decide_eq_true_eq]
    exact fun hk => h hk.symm
  rw [h2, List.append_nil]
  congr 1
  apply List.filter_congr
  intro y _
  by_cases hy : key y = k
  · have hq : key y ≠ key x := fun hk => h (hy ▸ hk)
    simp [hy, hq]
    exact h
  · simp [hy]

theorem foldE_cons_ok (step : σ → α → Except String σ) (s : σ) (x : α)
    (xs : List α) (s₂ : σ) (h : foldE step s (x :: xs) = .ok s₂) :
    ∃ s₁, step s x = .ok s₁ ∧ foldE step s₁ xs = .ok s₂ := by
  unfold foldE at h
  cases hstep : step s x with
  | ok s₁ => rw [hstep] at h; exact ⟨s₁, rfl, h⟩
  | error e => rw [hstep] at h; cases h

theorem lastVehicleRowWith_cons (fname : String) (i : SVal) (r : JVal)
    (rs : List JVal) :
    lastVehicleRowWith fname i (r :: rs) =
      (lastVehicleRowWith fname i rs).orElse (fun _ =>
        match extractVehicle fname r with
        | .ok (v, _, _) => if v.id = i then some v else none
        | .error _ => none) := rfl

theorem vehicleTagsOf_cons (fname : String) (r : JVal) (rs : List JVal) :
    vehicleTagsOf fname (r :: rs) =
      (match extractVehicle fname r with
       | .ok (_, ts, _) => ts
       | .error _ => []) ++ vehicleTagsOf fname rs := by
  unfold vehicleTagsOf
  rw [List.flatMap_cons]

theorem vehicleDefaultPartsOf_cons (fname : String) (r : JVal) (rs : List JVal) :
    vehicleDefaultPartsOf fname (r :: rs) =
      (match extractVehicle fname r with
       | .ok (_, _, ps) => ps
       | .error _ => []) ++ vehicleDefaultPartsOf fname rs := by
  unfold vehicleDefaultPartsOf
  rw [List.flatMap_cons]

/-- Effect of one vehicle-file row fold on the three vehicle tables:
the primary table behaves as iterated `INSERT OR REPLACE` (the last row
with a given id wins and each id keeps at most one row), the child tables
are append-only. -/
theorem vehicles_foldE (fname : String) (rows : List JVal) :
    ∀ db db', foldE (vehicleStep fname) db rows = .ok db' →
      (∀ i, findByKey (fun r => r.id) db'.vehicles i =
        ((lastVehicleRowWith fname i rows).orElse
          (fun _ => findByKey (fun r => r.id) db.vehicles i))) ∧
      (∀ i, countKey (fun r => r.id) db'.vehicles i =
        (if (lastVehicleRowWith fname i rows).isSome then 1
         else countKey (fun r => r.id) db.vehicles i)) ∧
      db'.vehicle_tags = db.vehicle_tags ++ vehicleTagsOf fname rows ∧
      db'.vehicle_default_parts =
        db.vehicle_default_parts ++ vehicleDefaultPartsOf fname rows := by
  induction rows with
  | nil =>
    intro db db' h
    unfold foldE at h
    cases h
    exact ⟨fun i => rfl, fun i => rfl, by simp [vehicleTagsOf],
           by simp [vehicleDefaultPartsOf]⟩
  | cons r rs ih =>
    intro db db' h
    obtain ⟨db₁, hstep, hfold⟩ := foldE_cons_ok _ _ _ _ _ h
    unfold vehicleStep at hstep
    cases hex : extractVehicle fname r with
    | error e => rw [hex] at hstep; cases hstep
    | ok res =>
      obtain ⟨v, ts, ps⟩ := res
      rw [hex] at hstep
      have hdb₁ : db₁ = { db with
          vehicles := upsertBy (fun r => r.id) db.vehicles v,
          vehicle_tags := db.vehicle_tags ++ ts,
          vehicle_default_parts := db.vehicle_default_parts ++ ps } := by
        cases hstep; rfl
      subst hdb₁
      obtain ⟨ihf, ihc, iht, ihp⟩ := ih _ _ hfold
      refine ⟨?_, ?_, ?_, ?_⟩
      · intro i
        rw [ihf i, lastVehicleRowWith_cons, hex]
        by_cases hid : i = v.id
        · subst hid
          simp only [findByKey_upsert_self, if_pos rfl]
          cases hlast : lastVehicleRowWith fname v.id rs <;>
            simp [hlast, Option.orElse]
        · rw [findByKey_upsert_other _ _ _ _ hid]
          have hne : ¬ v.id = i := fun hv => hid hv.symm
          cases hlast : lastVehicleRowWith fname i rs <;>
            simp [hlast, Option.orElse, hne]
      · intro i
        rw [ihc i, lastVehicleRowWith_cons, hex]
        by_cases hid : i = v.id
        · subst hid
          simp only [countKey_upsert_self, if_pos rfl]
          cases hlast : lastVehicleRowWith fname v.id rs <;>
            simp [hlast, Option.orElse]
        · rw [countKey_upsert_other _ _ _ _ hid]
          have hne : ¬ v.id = i := fun hv => hid hv.symm
          cases hlast : lastVehicleRowWith fname i rs <;>
            simp [hlast, Option.orElse, hne]
      · rw [iht, vehicleTagsOf_cons, hex]
        simp [List.append_assoc]
      · rw [ihp, vehicleDefaultPartsOf_cons, hex]
        simp [List.append_assoc]

theorem lastCargoRowWith_cons (fname : String) (i : SVal) (r : JVal)
    (rs : List JVal) :
    lastCargoRowWith fname i (r :: rs) =
      (lastCargoRowWith fname i rs).orElse (fun _ =>
        match extractCargo fname r with
        | .ok (c, _) => if c.id = i then some c else none
        | .error _ => none) := rfl

theorem cargoSpaceTypesOf_cons (fname : String) (r : JVal) (rs : List JVal) :
    cargoSpaceTypesOf fname (r :: rs) =
      (match extractCargo fname r with
       | .ok (_, ss) => ss
       | .error _ => []) ++ cargoSpaceTypesOf fname rs := by
  unfold cargoSpaceTypesOf
  rw [List.flatMap_cons]

/-- Cargo analogue of `vehicles_foldE`. -/
theorem cargos_foldE (fname : String) (rows : List JVal) :
    ∀ db db', foldE (cargoStep fname) db rows = .ok db' →
      (∀ i, findByKey (fun r => r.id) db'.cargos i =
        ((lastCargoRowWith fname i rows).orElse
          (fun _ => findByKey (fun r => r.id) db.cargos i))) ∧
      (∀ i, countKey (fun r => r.id) db'.cargos i =
        (if (lastCargoRowWith fname i rows).isSome then 1
         else countKey (fun r => r.id) db.cargos i)) ∧
      db'.cargo_space_types = db.cargo_space_types ++ cargoSpaceTypesOf fname rows := by
  induction rows with
  | nil =>
    intro db db' h
    unfold foldE at h
    cases h
    exact ⟨fun i => rfl, fun i => rfl, by simp [cargoSpaceTypesOf]⟩
  | cons r rs ih =>
    intro db db' h
    obtain ⟨db₁, hstep, hfold⟩ := foldE_cons_ok _ _ _ _ _ h
    unfold cargoStep at hstep
    cases hex : extractCargo fname r with
    | error e => rw [hex] at hstep; cases hstep
    | ok res =>
      obtain ⟨c, ss⟩ := res
      rw [hex] at hstep
      have hdb₁ : db₁ = { db with
          cargos := upsertBy (fun r => r.id) db.cargos c,
          cargo_space_types := db.cargo_space_types ++ ss } := by
        cases hstep; rfl
      subst hdb₁
      obtain ⟨ihf, ihc, ihs⟩ := ih _ _ hfold
      refine ⟨?_, ?_, ?_⟩
      · intro i
        rw [ihf i, lastCargoRowWith_cons, hex]
        by_cases hid : i = c.id
        · subst hid
          simp only [findByKey_upsert_self, if_pos rfl]
          cases hlast : lastCargoRowWith fname c.id rs <;>
            simp [hlast, Option.orElse]
        · rw [findByKey_upsert_other _ _ _ _ hid]
          have hne : ¬ c.id = i := fun hv => hid hv.symm
          cases hlast : lastCargoRowWith fname i rs <;>
            simp [hlast, Option.orElse, hne]
      · intro i
        rw [ihc i, lastCargoRowWith_cons, hex]
        by_cases hid : i = c.id
        · subst hid
          simp only [countKey_upsert_self, if_pos rfl]
          cases hlast : lastCargoRowWith fname c.id rs <;>
            simp [hlast, Option.orElse]
        · rw [countKey_upsert_other _ _ _ _ hid]
          have hne : ¬ c.id = i := fun hv => hid hv.symm
          cases hlast : lastCargoRowWith fname i rs <;>
            simp [hlast, Option.orElse, hne]
      · rw [ihs, cargoSpaceTypesOf_cons, hex]
        simp [List.append_assoc]

theorem lastPartRowWith_cons (fname : String) (i : SVal) (r : JVal)
    (rs : List JVal) :
    lastPartRowWith fname i (r :: rs) =
      (lastPartRowWith fname i rs).orElse (fun _ =>
        match extractPart fname r with
        | .ok (p, _) => if p.id = i then some p else none
        | .error _ => none) := rfl

theorem partTypesOf_cons (fname : String) (r : JVal) (rs : List JVal) :
    partTypesOf fname (r :: rs) =
      (match extractPart fname r with
       | .ok (_, cs) => cs
       | .error _ => []) ++ partTypesOf fname rs := by
  unfold partTypesOf
  rw [List.flatMap_cons]

/-- Parts analogue of `vehicles_foldE`. -/
theorem parts_foldE (fname : String) (rows : List JVal) :
    ∀ db db', foldE (partStep fname) db rows = .ok db' →
      (∀ i, findByKey (fun r => r.id) db'.vehicle_parts i =
        ((lastPartRowWith fname i rows).orElse
          (fun _ => findByKey (fun r => r.id) db.vehicle_parts i))) ∧
      (∀ i, countKey (fun r => r.id) db'.vehicle_parts i =
        (if (lastPartRowWith fname i rows).isSome then 1
         else countKey (fun r => r.id) db.vehicle_parts i)) ∧
      db'.part_compatible_types =
        db.part_compatible_types ++ partTypesOf fname rows := by
  induction rows with
  | nil =>
    intro db db' h
    unfold foldE at h
    cases h
    exact ⟨fun i => rfl, fun i => rfl, by simp [partTypesOf]⟩
  | cons r rs ih =>
    intro db db' h
    obtain ⟨db₁, hstep, hfold⟩ := foldE_cons_ok _ _ _ _ _ h
    unfold partStep at hstep
    cases hex : extractPart fname r with
    | error e => rw [hex] at hstep; cases hstep
    | ok res =>
      obtain ⟨p, cs⟩ := res
      rw [hex] at hstep
      have hdb₁ : db₁ = { db with
          vehicle_parts := upsertBy (fun r => r.id) db.vehicle_parts p,
          part_compatible_types := db.part_compatible_types ++ cs } := by
        cases hstep; rfl
      subst hdb₁
      obtain ⟨ihf, ihc, ihs⟩ := ih _ _ hfold
      refine ⟨?_, ?_, ?_⟩
      · intro i
        rw [ihf i, lastPartRowWith_cons, hex]
        by_cases hid : i = p.id
        · subst hid
          simp only [findByKey_upsert_self, if_pos rfl]
          cases hlast : lastPartRowWith fname p.id rs <;>
            simp [hlast, Option.orElse]
        · rw [findByKey_upsert_other _ _ _ _ hid]
          have hne : ¬ p.id = i := fun hv => hid hv.symm
          cases hlast : lastPartRowWith fname i rs <;>
            simp [hlast, Option.orElse, hne]
      · intro i
        rw [ihc i, lastPartRowWith_cons, hex]
        by_cases hid : i = p.id
        · subst hid
          simp only [countKey_upsert_self, if_pos rfl]
          cases hlast : lastPartRowWith fname p.id rs <;>
            simp [hlast, Option.orElse]
        · rw [countKey_upsert_other _ _ _ _ hid]
          have hne : ¬ p.id = i := fun hv => hid hv.symm
          cases hlast : lastPartRowWith fname i rs <;>
            simp [hlast, Option.orElse, hne]
      · rw [ihs, partTypesOf_cons, hex]
        simp [List.append_assoc]

/-- A tabular file that contributes rows is processed exactly by folding
its rows. -/
theorem processTabular_rows (recog : String → Bool)
    (step : String → DB → JVal → Except String DB) (db : DB) (f : InputFile)
    (rows : List JVal) (h : tabularFileRows recog f = some rows) :
    processTabularFile recog step db f = foldE (step f.name) db rows := by
  unfold tabularFileRows at h
  unfold processTabularFile
  by_cases hrec : recog f.name = false
  · rw [if_pos hrec] at h; cases h
  · rw [if_neg hrec] at h
    rw [if_neg hrec]
    cases hdata : f.data with
    | jobj topfs =>
      rw [hdata] at h; dsimp only at h
      dsimp only
      cases hinner : (jlookup topfs "Data").getD (.jobj []) with
      | jobj dfs =>
        rw [hinner] at h; dsimp only at h
        dsimp only
        by_cases hty : isStr (pyGet dfs "Type") "DataTable" = false
        · rw [if_pos hty] at h; cases h
        · rw [if_neg hty] at h
          rw [if_neg hty]
          cases hrows : jlookup dfs "Rows" with
          | none => rw [hrows] at h; dsimp only at h; cases h
          | some rowsVal =>
            rw [hrows] at h; dsimp only at h
            cases hit : iterElems rowsVal with
            | ok rows₁ =>
              rw [hit] at h
              have heq : rows₁ = rows := by simpa [Except.toOption] using h
              subst heq
              dsimp only
              rw [hit]
            | error e =>
              rw [hit] at h
              simp [Except.toOption] at h
      | jnull => rw [hinner] at h; dsimp only at h; cases h
      | jbool b => rw [hinner] at h; dsimp only at h; cases h
      | jnum q => rw [hinner] at h; dsimp only at h; cases h
      | jstr s => rw [hinner] at h; dsimp only at h; cases h
      | jarr xs => rw [hinner] at h; dsimp only at h; cases h
    | jnull => rw [hdata] at h; dsimp only at h; cases h
    | jbool b => rw [hdata] at h; dsimp only at h; cases h
    | jnum q => rw [hdata] at h; dsimp only at h; cases h
    | jstr s => rw [hdata] at h; dsimp only at h; cases h
    | jarr xs => rw [hdata] at h; dsimp only at h; cases h

/-- Claim C4: for vehicle and cargo files, each row identifier keeps
exactly one primary row, and after processing two files that define the
same identifier the surviving row is the extraction of the last matching
record of the later file (`INSERT OR REPLACE` last-writer-wins). -/
theorem tabular_replacement :
    (∀ f1 f2 db' i rows2 v2,
      processVehicles DB.empty [f1, f2] = .ok db' →
      tabularFileRows recogVehicles f2 = some rows2 →
      lastVehicleRowWith f2.name i rows2 = some v2 →
      findByKey (fun r => r.id) db'.vehicles i = some v2 ∧
      countKey (fun r => r.id) db'.vehicles i = 1) ∧
    (∀ f1 f2 db' i rows2 c2,
      processCargos DB.empty [f1, f2] = .ok db' →
      tabularFileRows recogCargos f2 = some rows2 →
      lastCargoRowWith f2.name i rows2 = some c2 →
      findByKey (fun r => r.id) db'.cargos i = some c2 ∧
      countKey (fun r => r.id) db'.cargos i = 1) := by
  constructor
  · intro f1 f2 db' i rows2 v2 hrun hrows hlast
    unfold processVehicles at hrun
    obtain ⟨db1, h1, hrest⟩ := foldE_cons_ok _ _ _ _ _ hrun
    obtain ⟨db2, h2, hnil⟩ := foldE_cons_ok _ _ _ _ _ hrest
    have hdb' : db2 = db' := by unfold foldE at hnil; cases hnil; rfl
    subst hdb'
    unfold processVehiclesFile at h2
    rw [processTabular_rows recogVehicles vehicleStep db1 f2 rows2 hrows] at h2
    obtain ⟨hf, hc, -, -⟩ := vehicles_foldE f2.name rows2 db1 _ h2
    refine ⟨?_, ?_⟩
    · rw [hf i, hlast]; rfl
    · rw [hc i, hlast]; rfl
  · intro f1 f2 db' i rows2 c2 hrun hrows hlast
    unfold processCargos at hrun
    obtain ⟨db1, h1, hrest⟩ := foldE_cons_ok _ _ _ _ _ hrun
    obtain ⟨db2, h2, hnil⟩ := foldE_cons_ok _ _ _ _ _ hrest
    have hdb' : db2 = db' := by unfold foldE at hnil; cases hnil; rfl
    subst hdb'
    unfold processCargosFile at h2
    rw [processTabular_rows recogCargos cargoStep db1 f2 rows2 hrows] at h2
    obtain ⟨hf, hc, -⟩ := cargos_foldE f2.name rows2 db1 _ h2
    refine ⟨?_, ?_⟩
    · rw [hf i, hlast]; rfl
    · rw [hc i, hlast]; rfl

/-- Witness for C4: two synthetic vehicle files and two synthetic cargo
files re-defining the same id with different field values; the final row
matches the later file and the id has exactly one row. -/
theorem tabular_replacement_w :
    findByKey (fun r => r.id) c4VehDB.vehicles (.text "V1") = some c4VehRow ∧
    countKey (fun r => r.id) c4VehDB.vehicles (.text "V1") = 1 ∧
    findByKey (fun r => r.id) c4CargoDB.cargos (.text "C1") = some c4CargoRow ∧
    countKey (fun r => r.id) c4CargoDB.cargos (.text "C1") = 1 := by
  obtain ⟨hv1, hv2⟩ := tabular_replacement.1 vFileA vFileB c4VehDB (.text "V1")
    [.jobj [("RowName", .jstr "V1"), ("Cost", .jnum 999)]] c4VehRow
    rfl rfl rfl
  obtain ⟨hc1, hc2⟩ := tabular_replacement.2 cFileA cFileB c4CargoDB (.text "C1")
    [.jobj [("RowName", .jstr "C1"), ("VolumeSize", .jnum 7)]] c4CargoRow
    rfl rfl rfl
  exact ⟨hv1, hv2, hc1, hc2⟩

/-- Claim C10: child rows are plain inserts — re-processing the same file
leaves the earlier child rows in place and appends a second copy for all
four child kinds (vehicle tags, default-part assignments, cargo space
types, part compatible types), while the primary row is replaced and
stays unique. -/
theorem child_rows_accumulate :
    (∀ db f rows db₁ db₂,
      tabularFileRows recogVehicles f = some rows →
      processVehiclesFile db f = .ok db₁ →
      processVehiclesFile db₁ f = .ok db₂ →
      db₂.vehicle_tags =
        db.vehicle_tags ++ vehicleTagsOf f.name rows ++ vehicleTagsOf f.name rows ∧
      db₂.vehicle_default_parts =
        db.vehicle_default_parts ++ vehicleDefaultPartsOf f.name rows ++
          vehicleDefaultPartsOf f.name rows ∧
      (∀ i v, lastVehicleRowWith f.name i rows = some v →
        findByKey (fun r => r.id) db₂.vehicles i = some v ∧
        countKey (fun r => r.id) db₂.vehicles i = 1)) ∧
    (∀ db f rows db₁ db₂,
      tabularFileRows recogCargos f = some rows →
      processCargosFile db f = .ok db₁ →
      processCargosFile db₁ f = .ok db₂ →
      db₂.cargo_space_types =
        db.cargo_space_types ++ cargoSpaceTypesOf f.name rows ++
          cargoSpaceTypesOf f.name rows ∧
      (∀ i c, lastCargoRowWith f.name i rows = some c →
        findByKey (fun r => r.id) db₂.cargos i = some c ∧
        countKey (fun r => r.id) db₂.cargos i = 1)) ∧
    (∀ db f rows db₁ db₂,
      tabularFileRows recogParts f = some rows →
      processPartsFile db f = .ok db₁ →
      processPartsFile db₁ f = .ok db₂ →
      db₂.part_compatible_types =
        db.part_compatible_types ++ partTypesOf f.name rows ++ partTypesOf f.name rows ∧
      (∀ i p, lastPartRowWith f.name i rows = some p →
        findByKey (fun r => r.id) db₂.vehicle_parts i = some p ∧
        countKey (fun r => r.id) db₂.vehicle_parts i = 1)) := by
  refine ⟨?_, ?_, ?_⟩
  · intro db f rows db₁ db₂ hrows h1 h2
    unfold processVehiclesFile at h1 h2
    rw [processTabular_rows recogVehicles vehicleStep db f rows hrows] at h1
    rw [processTabular_rows recogVehicles vehicleStep db₁ f rows hrows] at h2
    obtain ⟨hf1, hc1, ht1, hp1⟩ := vehicles_foldE f.name rows db db₁ h1
    obtain ⟨hf2, hc2, ht2, hp2⟩ := vehicles_foldE f.name rows db₁ db₂ h2
    refine ⟨by rw [ht2, ht1, List.append_assoc], by rw [hp2, hp1, List.append_assoc], ?_⟩
    intro i v hlast
    rw [hf2 i, hc2 i, hlast]
    exact ⟨rfl, rfl⟩
  · intro db f rows db₁ db₂ hrows h1 h2
    unfold processCargosFile at h1 h2
    rw [processTabular_rows recogCargos cargoStep db f rows hrows] at h1
    rw [processTabular_rows recogCargos cargoStep db₁ f rows hrows] at h2
    obtain ⟨hf1, hc1, ht1⟩ := cargos_foldE f.name rows db db₁ h1
    obtain ⟨hf2, hc2, ht2⟩ := cargos_foldE f.name rows db₁ db₂ h2
    refine ⟨by rw [ht2, ht1, List.append_assoc], ?_⟩
    intro i c hlast
    rw [hf2 i, hc2 i, hlast]
    exact ⟨rfl, rfl⟩
  · intro db f rows db₁ db₂ hrows h1 h2
    unfold processPartsFile at h1 h2
    rw [processTabular_rows recogParts partStep db f rows hrows] at h1
    rw [processTabular_rows recogParts partStep db₁ f rows hrows] at h2
    obtain ⟨hf1, hc1, ht1⟩ := parts_foldE f.name rows db db₁ h1
    obtain ⟨hf2, hc2, ht2⟩ := parts_foldE f.name rows db₁ db₂ h2
    refine ⟨by rw [ht2, ht1, List.append_assoc], ?_⟩
    intro i p hlast
    rw [hf2 i, hc2 i, hlast]
    exact ⟨rfl, rfl⟩

/-- Witness for C10: re-processing the same vehicle, cargo and parts
files duplicates their child rows while primary rows stay unique. -/
theorem child_rows_accumulate_w :
    c10VehDB2.vehicle_tags =
      vehicleTagsOf "Vehicles.json" [vDupRowW] ++ vehicleTagsOf "Vehicles.json" [vDupRowW] ∧
    c10CargoDB2.cargo_space_types =
      cargoSpaceTypesOf "Cargos.json" [cDupRowW] ++ cargoSpaceTypesOf "Cargos.json" [cDupRowW] ∧
    c10PartDB2.part_compatible_types =
      partTypesOf "Engines.json" [pDupRowW] ++ partTypesOf "Engines.json" [pDupRowW] ∧
    countKey (fun r => r.id) c10VehDB2.vehicles (.text "V1") = 1 := by
  obtain ⟨ht, hp, hid⟩ := child_rows_accumulate.1 DB.empty vDupFile [vDupRowW]
    c10VehDB1 c10VehDB2 rfl rfl rfl
  obtain ⟨hts, -⟩ := child_rows_accumulate.2.1 DB.empty cDupFile [cDupRowW]
    c10CargoDB1 c10CargoDB2 rfl rfl rfl
  obtain ⟨htp, -⟩ := child_rows_accumulate.2.2 DB.empty pDupFile [pDupRowW]
    c10PartDB1 c10PartDB2 rfl rfl rfl
  refine ⟨by simpa using ht, by simpa using hts, by simpa using htp, ?_⟩
  exact (hid (.text "V1") c10VehRow rfl).2

/-! ## Blueprint-mass scanning and fan-out (claims C1 and C7) -/

theorem massContrib_pos (m : JVal) (q : ℚ) (h : massContrib m = .ok (some q)) :
    0 < q := by
  unfold massContrib at h
  by_cases ht : pyTruthy m = false
  · rw [if_pos ht] at h; cases h
  · rw [if_neg ht] at h
    cases m with
    | jnum r =>
      dsimp only at h
      by_cases hr : 0 < r
      · rw [if_pos hr] at h
        injection h with h1
        injection h1 with h2
        rwa [← h2]
      · rw [if_neg hr] at h
        injection h with h1
        cases h1
    | jbool b =>
      dsimp only at h
      injection h with h1
      injection h1 with h2
      rw [← h2]
      norm_num
    | jnull => cases h
    | jstr s => cases h
    | jarr xs => cases h
    | jobj fs => cases h

/-- The cargo-blueprint scan of a document computes the sum of a list of
strictly positive per-component contributions, recorded in order. -/
theorem exportScan_spec (es : List JVal) :
    ∀ acc total comps, foldE exportStep acc es = .ok (total, comps) →
      ∃ nc, comps = acc.2 ++ nc ∧ total = acc.1 + (nc.map (fun c => c.2)).sum ∧
        ∀ c ∈ nc, 0 < c.2 := by
  induction es with
  | nil =>
    intro acc total comps h
    unfold foldE at h
    injection h with h1
    subst h1
    exact ⟨[], by simp, by simp, by simp⟩
  | cons e es ih =>
    intro acc total comps h
    obtain ⟨acc₁, hstep, hfold⟩ := foldE_cons_ok _ _ _ _ _ h
    obtain ⟨nc₁, hcomps, htotal, hpos⟩ := ih acc₁ total comps hfold
    unfold exportStep at hstep
    cases h1 : asDict e with
    | error er => rw [h1] at hstep; simp at hstep
    | ok efs =>
      rw [h1] at hstep; dsimp only at hstep
      cases h2 : asDict (pyGetD efs "Properties" (.jobj [])) with
      | error er => rw [h2] at hstep; simp at hstep
      | ok pfs =>
        rw [h2] at hstep; dsimp only at hstep
        cases h3 : jlookup pfs "BodyInstance" with
        | none =>
          rw [h3] at hstep; dsimp only at hstep
          have : acc₁ = acc := by cases hstep; rfl
          subst this
          exact ⟨nc₁, hcomps, htotal, hpos⟩
        | some bv =>
          rw [h3] at hstep
          cases bv with
          | jobj bfs =>
            dsimp only at hstep
            cases h4 : massContrib (pyGet bfs "MassInKgOverride") with
            | error er => rw [h4] at hstep; simp at hstep
            | ok mo =>
              rw [h4] at hstep
              cases mo with
              | none =>
                have : acc₁ = acc := by cases hstep; rfl
                subst this
                exact ⟨nc₁, hcomps, htotal, hpos⟩
              | some q =>
                have hq : 0 < q := massContrib_pos _ _ h4
                have hacc₁ : acc₁ =
                    (qadd acc.1 q, acc.2 ++ [(pyGetD efs "ExportName" (.jstr "Unknown"), q)]) := by
                  cases hstep; rfl
                subst hacc₁
                refine ⟨(pyGetD efs "ExportName" (.jstr "Unknown"), q) :: nc₁, ?_, ?_, ?_⟩
                · rw [hcomps]; simp
                · rw [htotal]
                  simp only [qadd_eq_add, List.map_cons, List.sum_cons]
                  ring
                · intro c hc
                  rcases List.mem_cons.mp hc with rfl | hc
                  · exact hq
                  · exact hpos c hc
          | jnull =>
            have : acc₁ = acc := by cases hstep; rfl
            subst this; exact ⟨nc₁, hcomps, htotal, hpos⟩
          | jbool b =>
            have : acc₁ = acc := by cases hstep; rfl
            subst this; exact ⟨nc₁, hcomps, htotal, hpos⟩
          | jnum r =>
            have : acc₁ = acc := by cases hstep; rfl
            subst this; exact ⟨nc₁, hcomps, htotal, hpos⟩
          | jstr t =>
            have : acc₁ = acc := by cases hstep; rfl
            subst this; exact ⟨nc₁, hcomps, htotal, hpos⟩
          | jarr xs =>
            have : acc₁ = acc := by cases hstep; rfl
            subst this; exact ⟨nc₁, hcomps, htotal, hpos⟩

/-- The vehicle-blueprint scan likewise sums strictly positive
contributions. -/
theorem chassisScan_spec (es : List JVal) :
    ∀ acc total, foldE chassisStep acc es = .ok total →
      ∃ qs : List ℚ, total = acc + qs.sum ∧ ∀ q ∈ qs, 0 < q := by
  induction es with
  | nil =>
    intro acc total h
    unfold foldE at h
    injection h with h1
    subst h1
    exact ⟨[], by simp, by simp⟩
  | cons e es ih =>
    intro acc total h
    obtain ⟨acc₁, hstep, hfold⟩ := foldE_cons_ok _ _ _ _ _ h
    obtain ⟨qs₁, htotal, hpos⟩ := ih acc₁ total hfold
    unfold chassisStep at hstep
    cases h1 : asDict e with
    | error er => rw [h1] at hstep; simp at hstep
    | ok efs =>
      rw [h1] at hstep; dsimp only at hstep
      cases h2 : asDict (pyGetD efs "Properties" (.jobj [])) with
      | error er => rw [h2] at hstep; simp at hstep
      | ok pfs =>
        rw [h2] at hstep; dsimp only at hstep
        cases h3 : jlookup pfs "BodyInstance" with
        | none =>
          rw [h3] at hstep; dsimp only at hstep
          have : acc₁ = acc := by cases hstep; rfl
          subst this
          exact ⟨qs₁, htotal, hpos⟩
        | some bv =>
          rw [h3] at hstep
          cases bv with
          | jobj bfs =>
            dsimp only at hstep
            cases h4 : massContrib (pyGet bfs "MassInKgOverride") with
            | error er => rw [h4] at hstep; simp at hstep
            | ok mo =>
              rw [h4] at hstep
              cases mo with
              | none =>
                have : acc₁ = acc := by cases hstep; rfl
                subst this
                exact ⟨qs₁, htotal, hpos⟩
              | some q =>
                have hq : 0 < q := massContrib_pos _ _ h4
                have hacc₁ : acc₁ = qadd acc q := by cases hstep; rfl
                subst hacc₁
                refine ⟨q :: qs₁, ?_, ?_⟩
                · rw [htotal]
                  simp only [qadd_eq_add, List.sum_cons]
                  ring
                · intro r hr
                  rcases List.mem_cons.mp hr with rfl | hr
                  · exact hq
                  · exact hpos r hr
          | jnull =>
            have : acc₁ = acc := by cases hstep; rfl
            subst this; exact ⟨qs₁, htotal, hpos⟩
          | jbool b =>
            have : acc₁ = acc := by cases hstep; rfl
            subst this; exact ⟨qs₁, htotal, hpos⟩
          | jnum r =>
            have : acc₁ = acc := by cases hstep; rfl
            subst this; exact ⟨qs₁, htotal, hpos⟩
          | jstr t =>
            have : acc₁ = acc := by cases hstep; rfl
            subst this; exact ⟨qs₁, htotal, hpos⟩
          | jarr xs =>
            have : acc₁ = acc := by cases hstep; rfl
            subst this; exact ⟨qs₁, htotal, hpos⟩

theorem findByKey_foldl_upsert_notmem (t : List (SVal × SVal × SVal))
    (l : List SVal) (a b i : SVal) (hi : i ∉ l) :
    findByKey (fun r => r.1)
      (l.foldl (fun t cid => upsertBy (fun r => r.1) t (cid, a, b)) t) i =
      findByKey (fun r => r.1) t i := by
  induction l generalizing t with
  | nil => rfl
  | cons j rest ih =>
    rw [List.foldl_cons]
    rw [ih _ (fun hm => hi (List.mem_cons_of_mem _ hm))]
    exact findByKey_upsert_other _ _ _ _
      (fun he => hi (he ▸ List.mem_cons_self j rest))

theorem findByKey_foldl_upsert_mem (t : List (SVal × SVal × SVal))
    (l : List SVal) (a b i : SVal) (hi : i ∈ l) :
    findByKey (fun r => r.1)
      (l.foldl (fun t cid => upsertBy (fun r => r.1) t (cid, a, b)) t) i =
      some (i, a, b) := by
  induction l generalizing t with
  | nil => cases hi
  | cons j rest ih =>
    rw [List.foldl_cons]
    by_cases hm : i ∈ rest
    · exact ih _ hm
    · have hij : i = j := by
        rcases List.mem_cons.mp hi with h | h
        · exact h
        · exact absurd h hm
      subst hij
      rw [findByKey_foldl_upsert_notmem _ _ _ _ _ hm]
      exact findByKey_upsert_self (fun r => r.1) t (i, a, b)

theorem mapE_convComp_masses (comps : List (JVal × ℚ)) :
    ∀ comps₁, mapE convComp comps = .ok comps₁ →
      comps₁.map (fun c => c.2) = comps.map (fun c => c.2) := by
  induction comps with
  | nil =>
    intro comps₁ h
    unfold mapE at h
    injection h with h1
    rw [← h1]
    rfl
  | cons c cs ih =>
    intro comps₁ h
    unfold mapE at h
    cases h1 : convComp c with
    | error er => rw [h1] at h; cases h
    | ok y =>
      rw [h1] at h
      cases h2 : mapE convComp cs with
      | error er => rw [h2] at h; cases h
      | ok ys =>
        rw [h2] at h
        have : comps₁ = y :: ys := by cases h; rfl
        subst this
        have hy : y.2 = c.2 := by
          unfold convComp at h1
          cases h3 : toSValE c.1 with
          | error er => rw [h3] at h1; cases h1
          | ok n =>
            rw [h3] at h1
            cases h1; rfl
        simp [hy, ih ys h2]

/-- Claim C7: a matched blueprint document fans identical derived rows out
to every matched entity id — the same total mass and the same canonical
blueprint-path value for each id, and one copy of the per-component child
rows per id (cargo side), and likewise for vehicle chassis weights. -/
theorem weights_fanout :
    (∀ rev db f bname dfs es total comps db' i,
      blueprintDocOf f = some (.ok (bname, dfs)) →
      iterElems (pyGetD dfs "Exports" (.jarr [])) = .ok es →
      scanExports es = .ok (total, comps) →
      0 < total →
      cargoWeightFileStep rev db f = .ok db' →
      i ∈ matchedIds rev bname →
      ∃ (bp : SVal) (comps₁ : List (SVal × ℚ)),
        (∀ j ∈ matchedIds rev bname,
          findByKey (fun r => r.1) db'.cargo_weights j = some (j, .num total, bp)) ∧
        db'.cargo_weight_components = db.cargo_weight_components ++
          (matchedIds rev bname).flatMap
            (fun cid => comps₁.map (fun c => (cid, c.1, SVal.num c.2))) ∧
        comps₁.map (fun c => c.2) = comps.map (fun c => c.2)) ∧
    (∀ rev db f bname dfs es total db' i,
      blueprintDocOf f = some (.ok (bname, dfs)) →
      iterElems (pyGetD dfs "Exports" (.jarr [])) = .ok es →
      scanChassis es = .ok total →
      0 < total →
      vehicleWeightFileStep rev db f = .ok db' →
      i ∈ matchedIds rev bname →
      ∃ bp, ∀ j ∈ matchedIds rev bname,
        findByKey (fun r => r.1) db'.vehicle_weights j = some (j, .num total, bp)) := by
  constructor
  · intro rev db f bname dfs es total comps db' i hdoc hiter hscan hpos hstep hmem
    unfold cargoWeightFileStep at hstep
    rw [hdoc] at hstep
    dsimp only at hstep
    have hne : ¬ (matchedIds rev bname).isEmpty = true := by
      cases hm : matchedIds rev bname with
      | nil => rw [hm] at hmem; cases hmem
      | cons x xs => simp
    rw [if_neg hne, hiter] at hstep
    dsimp only at hstep
    rw [hscan] at hstep
    dsimp only at hstep
    rw [if_pos hpos] at hstep
    cases hfe : firstExportName dfs with
    | error er => rw [hfe] at hstep; simp at hstep
    | ok bpv =>
      rw [hfe] at hstep
      dsimp only at hstep
      cases hts : toSValE bpv with
      | error er => rw [hts] at hstep; simp at hstep
      | ok bp =>
        rw [hts] at hstep
        dsimp only at hstep
        cases hmc : mapE convComp comps with
        | error er => rw [hmc] at hstep; simp at hstep
        | ok comps₁ =>
          rw [hmc] at hstep
          have hdb' : db' = { db with
              cargo_weights := (matchedIds rev bname).foldl
                (fun t cid => upsertBy (fun r => r.1) t (cid, SVal.num total, bp))
                db.cargo_weights,
              cargo_weight_components := db.cargo_weight_components ++
                (matchedIds rev bname).flatMap
                  (fun cid => comps₁.map (fun c => (cid, c.1, SVal.num c.2))) } := by
            cases hstep; rfl
          subst hdb'
          exact ⟨bp, comps₁,
            fun j hj => findByKey_foldl_upsert_mem _ _ _ _ _ hj,
            rfl, mapE_convComp_masses comps comps₁ hmc⟩
  · intro rev db f bname dfs es total db' i hdoc hiter hscan hpos hstep hmem
    unfold vehicleWeightFileStep at hstep
    rw [hdoc] at hstep
    dsimp only at hstep
    have hne : ¬ (matchedIds rev bname).isEmpty = true := by
      cases hm : matchedIds rev bname with
      | nil => rw [hm] at hmem; cases hmem
      | cons x xs => simp
    rw [if_neg hne, hiter] at hstep
    dsimp only at hstep
    rw [hscan] at hstep
    dsimp only at hstep
    rw [if_pos hpos] at hstep
    cases hfe : firstExportName dfs with
    | error er => rw [hfe] at hstep; simp at hstep
    | ok bpv =>
      rw [hfe] at hstep
      dsimp only at hstep
      cases hts : toSValE bpv with
      | error er => rw [hts] at hstep; simp at hstep
      | ok bp =>
        rw [hts] at hstep
        have hdb' : db' = { db with
            vehicle_weights := (matchedIds rev bname).foldl
              (fun t vid => upsertBy (fun r => r.1) t (vid, SVal.num total, bp))
              db.vehicle_weights } := by
          cases hstep; rfl
        subst hdb'
        exact ⟨bp, fun j hj => findByKey_foldl_upsert_mem _ _ _ _ _ hj⟩

/-- Witness for C7: two cargos share the blueprint key `Box`; both receive
the same 100 kg total and per-component rows, and vehicle `V1` receives
its 200 kg chassis row. -/
theorem weights_fanout_w :
    (∃ (bp : SVal) (comps₁ : List (SVal × ℚ)),
      (∀ j ∈ matchedIds fanRev "Box",
        findByKey (fun r => r.1) fanDB2.cargo_weights j = some (j, .num 100, bp)) ∧
      fanDB2.cargo_weight_components = fanDB.cargo_weight_components ++
        (matchedIds fanRev "Box").flatMap
          (fun cid => comps₁.map (fun c => (cid, c.1, SVal.num c.2))) ∧
      comps₁.map (fun c => c.2) = [(30 : ℚ), 70]) ∧
    (∃ bp, ∀ j ∈ matchedIds vwRev "V1",
      findByKey (fun r => r.1) vwDB2.vehicle_weights j = some (j, .num 200, bp)) := by
  constructor
  · obtain ⟨bp, comps₁, h1, h2, h3⟩ := weights_fanout.1 fanRev fanDB boxBlueprintFile
      "Box"
      [("Type", .jstr "Blueprint"),
       ("Exports", .jarr [mkExport "BoxRoot" 30, mkExport "BoxLid" 70])]
      [mkExport "BoxRoot" 30, mkExport "BoxLid" 70]
      100 [(.jstr "BoxRoot", 30), (.jstr "BoxLid", 70)] fanDB2 (.text "CargoA")
      rfl rfl rfl (by decide) rfl (by decide)
    exact ⟨bp, comps₁, h1, h2, by rw [h3]; rfl⟩
  · obtain ⟨bp, h1⟩ := weights_fanout.2 vwRev DB.empty blueprintScnFile "V1"
      [("Type", .jstr "Blueprint"), ("Exports", .jarr [mkExport "V1Bp" 200])]
      [mkExport "V1Bp" 200] 200 vwDB2 (.text "V1")
      rfl rfl rfl (by decide) rfl (by decide)
    exact ⟨bp, h1⟩

/-- Claim C1 (amended): the cargo- and vehicle-weight scans compute sums
of strictly positive contributions, and a document whose sum is zero
writes no derived weight row for any matched entity; cargo-bed-spec rows,
however, are persisted whenever the row's `CargoBed` value is truthy,
regardless of the size values (a falsy `CargoBed` skips the row). -/
theorem derived_rows_positivity :
    (∀ es total comps, scanExports es = .ok (total, comps) →
      total = (comps.map (fun c => c.2)).sum ∧ ∀ c ∈ comps, 0 < c.2) ∧
    (∀ es total, scanChassis es = .ok total →
      ∃ qs : List ℚ, total = qs.sum ∧ ∀ q ∈ qs, 0 < q) ∧
    (∀ rev db f bname dfs es comps db',
      blueprintDocOf f = some (.ok (bname, dfs)) →
      iterElems (pyGetD dfs "Exports" (.jarr [])) = .ok es →
      scanExports es = .ok (0, comps) →
      cargoWeightFileStep rev db f = .ok db' → db' = db) ∧
    (∀ rev db f bname dfs es db',
      blueprintDocOf f = some (.ok (bname, dfs)) →
      iterElems (pyGetD dfs "Exports" (.jarr [])) = .ok es →
      scanChassis es = .ok 0 →
      vehicleWeightFileStep rev db f = .ok db' → db' = db) ∧
    (∀ fname db fs ridv, rowNameOf fs = .ok ridv →
      pyTruthy (pyGetD fs "CargoBed" (.jobj [])) = false →
      bedStep fname db (.jobj fs) = .ok db) ∧
    (∀ fname db fs db', bedStep fname db (.jobj fs) = .ok db' →
      pyTruthy (pyGetD fs "CargoBed" (.jobj [])) = true →
      ∃ r, db' = { db with
        cargo_bed_specs := upsertBy (fun x => x.part_id) db.cargo_bed_specs r }) := by
  refine ⟨?_, ?_, ?_, ?_, ?_, ?_⟩
  · intro es total comps h
    obtain ⟨nc, hcomps, htotal, hpos⟩ := exportScan_spec es (0, []) total comps h
    simp only [List.nil_append] at hcomps
    subst hcomps
    exact ⟨by rw [htotal]; ring, hpos⟩
  · intro es total h
    obtain ⟨qs, htotal, hpos⟩ := chassisScan_spec es 0 total h
    exact ⟨qs, by rw [htotal]; ring, hpos⟩
  · intro rev db f bname dfs es comps db' hdoc hiter hscan hstep
    unfold cargoWeightFileStep at hstep
    rw [hdoc] at hstep
    dsimp only at hstep
    by_cases hne : (matchedIds rev bname).isEmpty = true
    · rw [if_pos hne] at hstep
      cases hstep; rfl
    · rw [if_neg hne, hiter] at hstep
      dsimp only at hstep
      rw [hscan] at hstep
      dsimp only at hstep
      rw [if_neg (lt_irrefl 0)] at hstep
      cases hstep; rfl
  · intro rev db f bname dfs es db' hdoc hiter hscan hstep
    unfold vehicleWeightFileStep at hstep
    rw [hdoc] at hstep
    dsimp only at hstep
    by_cases hne : (matchedIds rev bname).isEmpty = true
    · rw [if_pos hne] at hstep
      cases hstep; rfl
    · rw [if_neg hne, hiter] at hstep
      dsimp only at hstep
      rw [hscan] at hstep
      dsimp only at hstep
      rw [if_neg (lt_irrefl 0)] at hstep
      cases hstep; rfl
  · intro fname db fs ridv hrid htr
    unfold bedStep
    rw [show asDict (JVal.jobj fs) = Except.ok fs from rfl]
    dsimp only
    rw [hrid]
    dsimp only
    rw [if_pos htr]
  · intro fname db fs db' hstep htr
    unfold bedStep at hstep
    rw [show asDict (JVal.jobj fs) = Except.ok fs from rfl] at hstep
    dsimp only at hstep
    cases hrn : rowNameOf fs with
    | error e => rw [hrn] at hstep; simp at hstep
    | ok ridv =>
      rw [hrn] at hstep
      dsimp only at hstep
      rw [if_neg (by simp [htr])] at hstep
      cases hcb : asDict (pyGetD fs "CargoBed" (.jobj [])) with
      | error e => rw [hcb] at hstep; simp at hstep
      | ok cbfs =>
        rw [hcb] at hstep
        dsimp only at hstep
        cases hbf : bedFields ridv cbfs with
        | error e => rw [hbf] at hstep; simp at hstep
        | ok r =>
          rw [hbf] at hstep
          exact ⟨r, by cases hstep; rfl⟩

/-- Witness for C1 at concrete inputs: the massless `OtherBox` blueprint
writes nothing even though it matches a cargo, a falsy `CargoBed` skips
the bed row, and a truthy `CargoBed` persists one. -/
theorem derived_rows_positivity_w :
    ((0 : ℚ) = (([] : List (JVal × ℚ)).map (fun c => c.2)).sum) ∧
    cargoWeightFileStep zeroRev DB.empty emptyBlueprintFile = .ok DB.empty ∧
    bedStep "CargoBedFlat.json" DB.empty
      (.jobj [("RowName", .jstr "B2"), ("CargoBed", .jobj [])]) = .ok DB.empty ∧
    (∃ r, bedZeroDB = { DB.empty with
      cargo_bed_specs := upsertBy (fun x => x.part_id) DB.empty.cargo_bed_specs r }) := by
  refine ⟨?_, ?_, ?_, ?_⟩
  · exact (derived_rows_positivity.1
      [.jobj [("ExportName", .jstr "O1"), ("Properties", .jobj [])]] 0 [] rfl).1
  · have h := derived_rows_positivity.2.2.1 zeroRev DB.empty emptyBlueprintFile
      "OtherBox" [("Type", .jstr "Blueprint"),
        ("Exports", .jarr [.jobj [("ExportName", .jstr "O1"), ("Properties", .jobj [])]])]
      [.jobj [("ExportName", .jstr "O1"), ("Properties", .jobj [])]] [] DB.empty
      rfl rfl rfl rfl
    rw [h] at *
    rfl
  · exact derived_rows_positivity.2.2.2.2.1 "CargoBedFlat.json" DB.empty
      [("RowName", .jstr "B2"), ("CargoBed", .jobj [])] (.jstr "B2") rfl (by decide)
  · exact derived_rows_positivity.2.2.2.2.2 "CargoBedFlat.json" DB.empty
      [("RowName", .jstr "B1"), ("CargoBed", .jobj [("bFixCargo", .jbool false)])]
      bedZeroDB rfl (by decide)

/-- Counterexample to C1 as stated: a cargo-bed row whose `CargoBed`
mapping is truthy but carries no size information is persisted as a
derived row with every mass/size column equal to zero. -/
theorem derived_rows_positivity_cex :
    processBeds DB.empty [bedZeroFile] =
      .ok { DB.empty with cargo_bed_specs :=
        [⟨.text "B1", .text "", .num 0, .num 0, .num 0, .num 0, .num 0, .num 0⟩] } := rfl

theorem sqlTrue_some (b : Bool) : sqlTrue (some b) = b := by
  cases b <;> rfl

theorem sqlTrue_none : sqlTrue none = false := rfl

/-- A cargo has some output row in the view exactly when it is stored and
passes the WHERE condition: the left join never drops a kept cargo. -/
theorem mem_activeCargosView (db : DB) (c : CargoRow) :
    (∃ w, (c, w) ∈ activeCargosView db) ↔ (c ∈ db.cargos ∧ whereActive c = true) := by
  constructor
  · rintro ⟨w, hw⟩
    unfold activeCargosView at hw
    rw [List.mem_flatMap] at hw
    obtain ⟨c', hc', hin⟩ := hw
    by_cases hwa : whereActive c' = true
    · rw [if_pos hwa] at hin
      have hcc : c' = c := by
        cases hfl : (db.cargo_weights.filter fun w => sEqb w.1 c'.id) with
        | nil =>
          rw [hfl] at hin
          rw [List.mem_singleton] at hin
          exact (congrArg Prod.fst hin).symm
        | cons w0 ws =>
          rw [hfl] at hin
          obtain ⟨x, hx, heq⟩ := List.mem_map.mp hin
          exact congrArg Prod.fst heq
      subst hcc
      exact ⟨hc', hwa⟩
    · rw [if_neg hwa] at hin
      cases hin
  · rintro ⟨hc, hwa⟩
    cases hfl : (db.cargo_weights.filter fun w => sEqb w.1 c.id) with
    | nil =>
      refine ⟨none, ?_⟩
      unfold activeCargosView
      rw [List.mem_flatMap]
      refine ⟨c, hc, ?_⟩
      rw [if_pos hwa, hfl]
      exact List.mem_singleton.mpr rfl
    | cons w0 ws =>
      refine ⟨some (w0.2.1, w0.2.2), ?_⟩
      unfold activeCargosView
      rw [List.mem_flatMap]
      refine ⟨c, hc, ?_⟩
      rw [if_pos hwa, hfl]
      exact List.mem_map.mpr ⟨w0, List.mem_cons_self w0 ws, rfl⟩

/-- The WHERE condition of `active_cargos`, characterised over the typed
fragment the pipeline stores in those columns. -/
theorem whereActive_iff (c : CargoRow)
    (hdep : c.is_deprecated = .null ∨ c.is_deprecated = .num 0 ∨ c.is_deprecated = .num 1)
    (hpath : c.actor_class_path = .null ∨ ∃ s, c.actor_class_path = .text s) :
    (whereActive c = true) ↔
      (c.is_deprecated ≠ .num 1 ∧ ∃ s, c.actor_class_path = .text s ∧ s ≠ "") := by
  rcases hpath with hp | ⟨s, hp⟩
  · rcases hdep with hd | hd | hd <;>
      simp [whereActive, sqlEq, sqlTrue_some, sqlTrue_none, hp, hd]
  · rcases hdep with hd | hd | hd <;>
      simp [whereActive, sqlEq, sqlTrue_some, sqlTrue_none, hp, hd]

/-- Claim C8: over the typed fragment the pipeline stores (deprecation
flag NULL/0/1, path NULL or text), a cargo row has an output row in the
`active_cargos` view exactly when it is stored, not flagged deprecated,
and its actor class path is a non-empty string; and membership is
invariant under replacing the `cargo_weights` table by anything. -/
theorem active_cargos_membership (db : DB) (c : CargoRow)
    (hdep : c.is_deprecated = .null ∨ c.is_deprecated = .num 0 ∨ c.is_deprecated = .num 1)
    (hpath : c.actor_class_path = .null ∨ ∃ s, c.actor_class_path = .text s) :
    ((∃ w, (c, w) ∈ activeCargosView db) ↔
      (c ∈ db.cargos ∧ c.is_deprecated ≠ .num 1 ∧
        ∃ s, c.actor_class_path = .text s ∧ s ≠ "")) ∧
    (∀ W, (∃ w, (c, w) ∈ activeCargosView { db with cargo_weights := W }) ↔
      (∃ w, (c, w) ∈ activeCargosView db)) := by
  constructor
  · rw [mem_activeCargosView db c, whereActive_iff c hdep hpath]
  · intro W
    rw [mem_activeCargosView _ c, mem_activeCargosView db c]

/-- Witness for C8 on `c8DB`: both active cargos (with and without a
weight row) appear, the deprecated cargo and the empty-path cargo do
not. -/
theorem active_cargos_membership_w :
    (∃ w, (c8Cargo "plain" .null (.text "/G/B_C"), w) ∈ activeCargosView c8DB) ∧
    (∃ w, (c8Cargo "weighted" (.num 0) (.text "/G/C_C"), w) ∈ activeCargosView c8DB) ∧
    ¬(∃ w, (c8Cargo "dep" (.num 1) (.text "/G/A_C"), w) ∈ activeCargosView c8DB) ∧
    ¬(∃ w, (c8Cargo "emptypath" (.num 0) (.text ""), w) ∈ activeCargosView c8DB) := by
  refine ⟨?_, ?_, ?_, ?_⟩
  · exact (active_cargos_membership c8DB _ (Or.inl rfl) (Or.inr ⟨"/G/B_C", rfl⟩)).1.mpr
      ⟨by decide, by decide, "/G/B_C", rfl, by decide⟩
  · exact (active_cargos_membership c8DB _ (Or.inr (Or.inl rfl))
        (Or.inr ⟨"/G/C_C", rfl⟩)).1.mpr
      ⟨by decide, by decide, "/G/C_C", rfl, by decide⟩
  · intro h
    have h2 := (active_cargos_membership c8DB _ (Or.inr (Or.inr rfl))
      (Or.inr ⟨"/G/A_C", rfl⟩)).1.mp h
    exact h2.2.1 rfl
  · intro h
    have h2 := (active_cargos_membership c8DB _ (Or.inr (Or.inl rfl))
      (Or.inr ⟨"", rfl⟩)).1.mp h
    obtain ⟨-, -, s, hs, hne⟩ := h2
    have hs2 : SVal.text "" = SVal.text s := hs
    injection hs2 with h3
    exact hne h3.symm

theorem sEqb_eq_true {a b : SVal} (h : sEqb a b = true) : a = b := by
  cases a <;> cases b <;> simp [sEqb] at h <;> simp [h]

theorem sEqb_refl {k : SVal} (hk : k ≠ .null) : sEqb k k = true := by
  cases k with
  | null => exact absurd rfl hk
  | num q => simp [sEqb]
  | text s => simp [sEqb]

theorem sEqb_null_right (a : SVal) : sEqb a .null = false := by
  cases a <;> rfl

theorem sEqb_eq_decide {a k : SVal} (hk : k ≠ .null) : sEqb a k = decide (a = k) := by
  cases a <;> cases k <;> simp_all [sEqb]

theorem find?_eq_head?_filter (p : α → Bool) (l : List α) :
    l.find? p = (l.filter p).head? := by
  induction l with
  | nil => rfl
  | cons a l ih =>
    by_cases h : p a = true
    · rw [List.find?_cons_of_pos l h, List.filter_cons_of_pos h, List.head?_cons]
    · rw [List.find?_cons_of_neg l h, List.filter_cons_of_neg h, ih]

theorem mem_firstDedup (x : SVal) (l : List SVal) : x ∈ firstDedup l ↔ x ∈ l := by
  induction l with
  | nil => simp [firstDedup]
  | cons a l ih =>
    simp only [firstDedup, List.mem_cons, List.mem_filter, ih]
    constructor
    · rintro (rfl | ⟨h, _⟩)
      · exact Or.inl rfl
      · exact Or.inr h
    · rintro (rfl | h)
      · exact Or.inl rfl
      · by_cases hx : x = a
        · exact Or.inl hx
        · exact Or.inr ⟨h, by simpa using hx⟩

theorem find?_sEqb_key (ks : List SVal) (k : SVal) (hk : k ≠ .null) :
    ks.find? (fun x => sEqb x k) = if k ∈ ks then some k else none := by
  induction ks with
  | nil => simp
  | cons a ks ih =>
    cases hpa : sEqb a k with
    | true =>
      have haa : a = k := sEqb_eq_true hpa
      subst haa
      simp [List.find?_cons, hpa, List.mem_cons]
    | false =>
      have hne : ¬(k = a) := by
        intro h
        subst h
        rw [sEqb_refl hk] at hpa
        cases hpa
      simp [List.find?_cons, hpa, List.mem_cons, hne, ih]

theorem flatMap_congr' {l : List α} {f g : α → List β} (h : ∀ a ∈ l, f a = g a) :
    l.flatMap f = l.flatMap g := by
  induction l with
  | nil => rfl
  | cons a l ih =>
    rw [List.flatMap_cons, List.flatMap_cons, h a (List.mem_cons_self a l),
      ih (fun b hb => h b (List.mem_cons_of_mem a hb))]

theorem flatMap_filter_guard (l : List α) (p : α → Bool) (f : α → List β) :
    (l.filter p).flatMap f = l.flatMap (fun a => if p a then f a else []) := by
  induction l with
  | nil => rfl
  | cons a l ih =>
    rw [List.filter_cons]
    by_cases h : p a = true
    · rw [if_pos h, List.flatMap_cons, List.flatMap_cons, if_pos h, ih]
    · rw [if_neg h, List.flatMap_cons, if_neg h, ih, List.nil_append]

theorem flatMap_singleton_map (l : List α) (g : α → β) :
    l.flatMap (fun a => [g a]) = l.map g := by
  induction l with
  | nil => rfl
  | cons a l ih => rw [List.flatMap_cons, List.map_cons, ih, List.singleton_append]

theorem filter_key_nodup (l : List α) (f : α → SVal) (k : SVal)
    (hnd : (l.map f).Nodup) :
    l.filter (fun a => sEqb (f a) k) = [] ∨
      ∃ a, l.filter (fun a => sEqb (f a) k) = [a] := by
  induction l with
  | nil => exact Or.inl rfl
  | cons a l ih =>
    rw [List.map_cons, List.nodup_cons] at hnd
    rw [List.filter_cons]
    by_cases h : sEqb (f a) k = true
    · rw [if_pos h]
      refine Or.inr ⟨a, ?_⟩
      have hnil : l.filter (fun a => sEqb (f a) k) = [] := by
        rw [List.filter_eq_nil_iff]
        intro b hb hbk
        exact hnd.1 (List.mem_map.mpr ⟨b, hb, by rw [sEqb_eq_true hbk, ← sEqb_eq_true h]⟩)
      rw [hnil]
    · rw [if_neg h]
      exact ih hnd.2

/-- Looking a non-NULL key up in the grouped subquery yields exactly the
group row of that key, when the key occurs at all. -/
theorem find?_sqlGroupBy (l : List (SVal × SVal)) (k : SVal) (hk : k ≠ .null) :
    (sqlGroupBy l).find? (fun p => sEqb p.1 k) =
      if k ∈ l.map (fun r => r.1) then
        some (k, qsum ((l.filter (fun r => decide (r.1 = k))).map (fun r => numOr0 r.2)),
              (l.filter (fun r => decide (r.1 = k))).length)
      else none := by
  unfold sqlGroupBy
  rw [List.find?_map]
  rw [show ((fun p : SVal × ℚ × ℕ => sEqb p.1 k) ∘ (fun k' =>
      (k', qsum ((l.filter (fun r => decide (r.1 = k'))).map (fun r => numOr0 r.2)),
       (l.filter (fun r => decide (r.1 = k'))).length))) = (fun x => sEqb x k) from rfl]
  rw [find?_sEqb_key _ k hk]
  by_cases hmem : k ∈ l.map (fun r => r.1)
  · rw [if_pos ((mem_firstDedup k _).mpr hmem), if_pos hmem]
    rfl
  · rw [if_neg (fun h => hmem ((mem_firstDedup k _).mp h)), if_neg hmem]
    rfl

/-- Over text-free masses, the view's filtered-and-coalesced mass column
equals the claim's filterMap of known positive masses. -/
theorem filter_mass_filterMap (parts : List PartRow) (pid : SVal)
    (hmass : ∀ p ∈ parts, sIsText p.mass_kg = false) :
    (parts.filter (fun p => sEqb pid p.id && massPosWhere p.mass_kg)).map
        (fun p => numOr0 p.mass_kg) =
      (parts.filter (fun p => sEqb pid p.id)).filterMap (fun p =>
        match p.mass_kg with
        | .num q => if 0 < q then some q else none
        | _ => none) := by
  induction parts with
  | nil => rfl
  | cons p ps ih =>
    have hps : ∀ x ∈ ps, sIsText x.mass_kg = false :=
      fun x hx => hmass x (List.mem_cons_of_mem p hx)
    have hp := hmass p (List.mem_cons_self p ps)
    cases hm : p.mass_kg with
    | text s =>
      rw [hm] at hp
      simp [sIsText] at hp
    | null =>
      have hmn : massPosWhere SVal.null = false := rfl
      by_cases hid : sEqb pid p.id = true
      · simp [List.filter_cons, List.filterMap_cons, hid, hm, hmn, ih hps]
      · simp [List.filter_cons, List.filterMap_cons, hid, hm, hmn, ih hps]
    | num q =>
      by_cases hid : sEqb pid p.id = true
      · by_cases hq : 0 < q
        · have hmq : massPosWhere (SVal.num q) = true := by
            simp [massPosWhere, hq]
          have hnq : numOr0 (SVal.num q) = q := rfl
          simp [List.filter_cons, List.filterMap_cons, hid, hm, hmq, hq, hnq, ih hps]
        · have hmq : massPosWhere (SVal.num q) = false := by
            simp [massPosWhere, hq]
          simp [List.filter_cons, List.filterMap_cons, hid, hm, hmq, hq, ih hps]
      · simp [List.filter_cons, List.filterMap_cons, hid, hm, ih hps]

/-- Restricting the joined subquery rows to one non-NULL vehicle key
selects exactly the assignments of that vehicle. -/
theorem partsJoined_filter (db : DB) (vid : SVal) (hvid : vid ≠ .null) :
    (partsJoined db).filter (fun r => decide (r.1 = vid)) =
      (db.vehicle_default_parts.filter (fun a => sEqb a.1 vid)).flatMap (fun a =>
        (db.vehicle_parts.filter (fun p => sEqb a.2.2 p.id && massPosWhere p.mass_kg)).map
          (fun p => (a.1, p.mass_kg))) := by
  unfold partsJoined
  rw [List.filter_flatMap, flatMap_filter_guard]
  refine flatMap_congr' (fun a _ => ?_)
  rw [List.filter_map, sEqb_eq_decide hvid]
  by_cases h : a.1 = vid
  · simp [Function.comp, h]
  · simp [Function.comp, h]

/-- The mass column of the per-vehicle joined rows is the claim's
qualifying-mass list. -/
theorem qual_eq_view_masses (db : DB) (vid : SVal) (hvid : vid ≠ .null)
    (hmass : ∀ p ∈ db.vehicle_parts, sIsText p.mass_kg = false) :
    ((partsJoined db).filter (fun r => decide (r.1 = vid))).map (fun r => numOr0 r.2) =
      qualPartMassList db vid := by
  rw [partsJoined_filter db vid hvid]
  unfold qualPartMassList
  rw [List.map_flatMap]
  refine flatMap_congr' (fun a ha => ?_)
  rw [List.map_map]
  exact filter_mass_filterMap db.vehicle_parts a.2.2 hmass

/-- What the weight view's subquery lookup returns for any vehicle key, in
terms of the claim's qualifying-mass list. -/
theorem view_find_eq (db : DB) (vid : SVal)
    (hmass : ∀ p ∈ db.vehicle_parts, sIsText p.mass_kg = false) :
    (sqlGroupBy (partsJoined db)).find? (fun p => sEqb p.1 vid) =
      if qualPartMassList db vid = [] then none
      else some (vid, (qualPartMassList db vid).sum, (qualPartMassList db vid).length) := by
  by_cases hvid : vid = .null
  · subst hvid
    have hq : qualPartMassList db .null = [] := by
      unfold qualPartMassList
      have hfl : db.vehicle_default_parts.filter (fun a => sEqb a.1 .null) = [] := by
        rw [List.filter_eq_nil_iff]
        intro a ha
        simp [sEqb_null_right]
      rw [hfl]
      rfl
    rw [hq, if_pos rfl, List.find?_eq_none]
    intro x hx
    simp [sEqb_null_right]
  · rw [find?_sqlGroupBy _ vid hvid]
    have hqe := qual_eq_view_masses db vid hvid hmass
    by_cases hmem : vid ∈ (partsJoined db).map (fun r => r.1)
    · rw [if_pos hmem]
      have hfil : (partsJoined db).filter (fun r => decide (r.1 = vid)) ≠ [] := by
        intro hnil
        obtain ⟨r, hr, hrk⟩ := List.mem_map.mp hmem
        have hrm : r ∈ (partsJoined db).filter (fun r => decide (r.1 = vid)) := by
          rw [List.mem_filter]
          exact ⟨hr, by simp [hrk]⟩
        rw [hnil] at hrm
        cases hrm
      have hqne : qualPartMassList db vid ≠ [] := by
        rw [← hqe]
        intro h
        exact hfil (List.map_eq_nil_iff.mp h)
      rw [if_neg hqne]
      have h1 : qsum (((partsJoined db).filter (fun r => decide (r.1 = vid))).map
          (fun r => numOr0 r.2)) = (qualPartMassList db vid).sum := by
        rw [qsum_eq_sum, hqe]
      have h2 : ((partsJoined db).filter (fun r => decide (r.1 = vid))).length =
          (qualPartMassList db vid).length := by
        rw [← hqe, List.length_map]
      rw [h1, h2]
    · rw [if_neg hmem]
      have hfil : (partsJoined db).filter (fun r => decide (r.1 = vid)) = [] := by
        rw [List.filter_eq_nil_iff]
        intro r hr hrk
        exact hmem (List.mem_map.mpr ⟨r, hr, of_decide_eq_true hrk⟩)
      have hq : qualPartMassList db vid = [] := by
        rw [← hqe, hfil]
        rfl
      rw [hq, if_pos rfl]

/-- Claim C9: with text-free part masses and one weight row per vehicle
id, every vehicle yields exactly one `vehicles_with_weight` row whose
total weight is the derived chassis mass (zero when absent) plus the sum
of the known positive masses of its assigned default parts, with the part
count counting exactly those parts. -/
theorem vehicles_with_weight_totals (db : DB)
    (hmass : ∀ p ∈ db.vehicle_parts, sIsText p.mass_kg = false)
    (hw : (db.vehicle_weights.map (fun w => w.1)).Nodup) :
    vehiclesWithWeight db = db.vehicles.map (fun v =>
      { id := v.id, name := v.name, vehicle_type := v.vehicle_type,
        truck_class := v.truck_class, cost := v.cost,
        chassis_mass_kg := chassisOf db v.id,
        parts_weight_kg := (qualPartMassList db v.id).sum,
        total_weight_kg := chassisOf db v.id + (qualPartMassList db v.id).sum,
        part_count := (qualPartMassList db v.id).length }) := by
  rw [← flatMap_singleton_map db.vehicles]
  unfold vehiclesWithWeight
  dsimp only
  refine flatMap_congr' (fun v hv => ?_)
  simp only [view_find_eq db v.id hmass]
  rcases filter_key_nodup db.vehicle_weights (fun w => w.1) v.id hw with hfl | ⟨w, hfl⟩
  · have hch : chassisOf db v.id = 0 := by
      unfold chassisOf
      rw [find?_eq_head?_filter, hfl]
      rfl
    rw [hfl]
    by_cases hq : qualPartMassList db v.id = []
    · simp [hq, hch, qadd_eq_add, numOr0]
    · simp [hq, hch, qadd_eq_add, numOr0]
  · have hch : chassisOf db v.id = numOr0 w.2.1 := by
      unfold chassisOf
      rw [find?_eq_head?_filter, hfl]
      rfl
    rw [hfl]
    by_cases hq : qualPartMassList db v.id = []
    · simp [hq, hch, qadd_eq_add]
    · simp [hq, hch, qadd_eq_add]

set_option maxHeartbeats 2000000 in
/-- Witness for C9 on the claim's end-to-end scenario database: the
pipeline-built state yields exactly the predicted row with chassis mass
200, parts weight 150, total weight 350 and part count 1. -/
theorem vehicles_with_weight_totals_w :
    (∀ p ∈ scnDB.vehicle_parts, sIsText p.mass_kg = false) ∧
    (scnDB.vehicle_weights.map (fun w => w.1)).Nodup ∧
    vehiclesWithWeight scnDB =
      [{ id := .text "V1", name := .null, vehicle_type := .text "Truck",
         truck_class := .text "", cost := .num 1000,
         chassis_mass_kg := 200, parts_weight_kg := 150,
         total_weight_kg := 350, part_count := 1 }] := by
  refine ⟨by decide, by decide, ?_⟩
  rw [vehicles_with_weight_totals scnDB (by decide) (by decide)]
  simp only [← qsum_eq_sum, ← qadd_eq_add]
  decide

end MT
